import Mathlib

/-!
SteerableFilterFreqImageSource: a shallow embedding of `include/itkSteerableFilterFreqImageSource.hxx`
(ITKPhaseSymmetry) and the properties proved about it.

Conventions of the embedding:

* the template parameter `TOutputImage::ImageDimension` is the natural number `N`;
  fixed-size arrays indexed by a dimension are functions `Fin N → _`;
* `SizeValueType` values are natural numbers, `IndexValueType` values are integers
  (no overflow is involved in the file: they are only compared, copied and converted
  to `double`);
* a C++ `double` that is *computed* by the kernel is a value of `Double` below: an
  exact real, one of the two infinities, or not-a-number.  Division by zero, the inverse
  cosine outside `[-1, 1]` and the square root of a negative number behave as IEEE-754
  prescribes;
* the kernel is embedded in exact arithmetic (`evaluate`, `DynamicThreadedGenerateData`:
  finite results are not rounded and neither overflow nor underflow) and, with the
  arithmetic as a parameter (`evaluateWith`, `DynamicThreadedGenerateDataWith`), in
  IEEE-754 binary64 arithmetic, where every operation rounds its exact result to the
  nearest binary64 number; in exact arithmetic the two embeddings are the same function;
* the configuration fields of type `double` (spacing, origin, direction, orientation,
  angular bandwidth) range over a scalar type `R`, instantiated to `ℝ` for the kernel;
  the setters compare them with the C++ `!=`, under which a not-a-number differs from
  itself;
* `Modified()` of the base class `itk::Object` is modelled by a modification counter;
* the pixel type of the output image is `double` (the final cast is the identity).
-/

namespace itk

/-! ## The `double` values computed by the kernel -/

/-- A computed C++ `double`: a finite value (an exact real), plus or minus infinity, or
not-a-number. -/
inductive Double where
  | fin (x : ℝ)
  | posInf
  | negInf
  | nan

namespace Double

noncomputable section

/-- The infinity that a non-zero finite value `a` of the given sign produces (times
`+∞`, or divided by `+0`); `0` gives not-a-number. -/
def signedInf (a : ℝ) : Double :=
  if a = 0 then nan else if 0 < a then posInf else negInf

/-- IEEE-754 addition (finite sums exact). -/
def add : Double → Double → Double
  | fin a, fin b => fin (a + b)
  | fin _, posInf => posInf
  | fin _, negInf => negInf
  | posInf, fin _ => posInf
  | negInf, fin _ => negInf
  | posInf, posInf => posInf
  | negInf, negInf => negInf
  | _, _ => nan

/-- Unary minus. -/
def neg : Double → Double
  | fin a => fin (-a)
  | posInf => negInf
  | negInf => posInf
  | nan => nan

/-- IEEE-754 subtraction. -/
def sub (a b : Double) : Double := add a (neg b)

/-- IEEE-754 multiplication (finite products exact; `0 * ∞` is not-a-number). -/
def mul : Double → Double → Double
  | fin a, fin b => fin (a * b)
  | fin a, posInf => signedInf a
  | fin a, negInf => signedInf (-a)
  | posInf, fin b => signedInf b
  | negInf, fin b => signedInf (-b)
  | posInf, posInf => posInf
  | negInf, negInf => posInf
  | posInf, negInf => negInf
  | negInf, posInf => negInf
  | _, _ => nan

/-- IEEE-754 division (finite quotients exact).  A zero divisor is taken to be `+0`:
every divisor in the file is a size, a product of square roots or a square, so it is
never `-0`.  `0 / 0` and `∞ / ∞` are not-a-number; `a / 0` is the infinity of the sign
of `a`. -/
def div : Double → Double → Double
  | fin a, fin b => if b = 0 then signedInf a else fin (a / b)
  | fin _, posInf => fin 0
  | fin _, negInf => fin 0
  | posInf, fin b => if 0 ≤ b then posInf else negInf
  | negInf, fin b => if 0 ≤ b then negInf else posInf
  | _, _ => nan

/-- The C library `sqrt`: not-a-number on negative arguments. -/
def sqrt : Double → Double
  | fin a => if a < 0 then nan else fin (Real.sqrt a)
  | posInf => posInf
  | _ => nan

/-- The C library `acos`: defined on `[-1, 1]`, not-a-number (domain error) everywhere
else. -/
def acos : Double → Double
  | fin a => if -1 ≤ a ∧ a ≤ 1 then fin (Real.arccos a) else nan
  | _ => nan

/-- The C library `exp`. -/
def exp : Double → Double
  | fin a => fin (Real.exp a)
  | posInf => posInf
  | negInf => fin 0
  | nan => nan

/-- The comparison `a == b` of two doubles: not-a-number equals nothing. -/
def eq : Double → Double → Bool
  | fin a, fin b => decide (a = b)
  | posInf, posInf => true
  | negInf, negInf => true
  | _, _ => false

/-- The comparison `a < b` of two doubles: false as soon as one is not-a-number. -/
def lt : Double → Double → Prop
  | fin a, fin b => a < b
  | fin _, posInf => True
  | negInf, fin _ => True
  | negInf, posInf => True
  | _, _ => False

instance : LT Double := ⟨lt⟩
instance : Add Double := ⟨add⟩
instance : Sub Double := ⟨sub⟩
instance : Mul Double := ⟨mul⟩
instance : Div Double := ⟨div⟩
instance : Neg Double := ⟨neg⟩

end

end Double

/-! ## The comparison of stored doubles -/

/-- A type `R` of values of the C++ type `double` as they are held in the members and
passed to the setters, with the comparison `a != b`.  The comparison is false only between
equal values; a value that compares unequal to itself is a not-a-number. -/
class CppDouble (R : Type) where
  ne : R → R → Bool
  eq_of_ne_eq_false : ∀ a b : R, ne a b = false → a = b

/-- The doubles of the kernel with the IEEE-754 comparison: not-a-number differs from
everything, itself included. -/
noncomputable instance Double.instCppDouble : CppDouble Double where
  ne a b := !Double.eq a b
  eq_of_ne_eq_false := by
    intro a b h
    cases a <;> cases b <;> simp [Double.eq] at h ⊢
    exact h

/-- A type without not-a-number: the comparison is the negation of equality. -/
def CppDouble.ofDecidableEq (R : Type) [DecidableEq R] : CppDouble R where
  ne a b := decide (a ≠ b)
  eq_of_ne_eq_false := by
    intro a b h
    simpa using h

/-! ## The object state -/

/-- The data members of `SteerableFilterFreqImageSource<TOutputImage>` used by the file,
with `R` the type of the `double` configuration values, and the modification counter
that `Modified()` advances. -/
structure SteerableFilterFreqImageSource (R : Type) (N : ℕ) where
  m_Size : Fin N → ℕ
  m_Spacing : Fin N → R
  m_Origin : Fin N → R
  m_Direction : Fin N → Fin N → R
  m_Orientation : Fin N → R
  m_AngularBandwidth : R
  m_MTime : ℕ

/-- An `ImageRegion`: start index and size per dimension. -/
structure ImageRegion (N : ℕ) where
  index : Fin N → ℤ
  size : Fin N → ℕ

/-- The part of the output image that the file writes: the largest possible region and
the physical metadata. -/
structure OutputImage (R : Type) (N : ℕ) where
  largestPossibleRegion : ImageRegion N
  spacing : Fin N → R
  origin : Fin N → R
  direction : Fin N → Fin N → R

namespace SteerableFilterFreqImageSource

variable {R : Type} {N : ℕ}

/-- The call `this->Modified()`: the configuration-changed signal. -/
def Modified (s : SteerableFilterFreqImageSource R N) : SteerableFilterFreqImageSource R N :=
  { s with m_MTime := s.m_MTime + 1 }

/-! ## The kernel: `DynamicThreadedGenerateData` -/

section Kernel

open Double

/-- State of the loop of lines 109-113: the running sum `orientationRadius` and the
array `centerPoint`. -/
structure SetupState (N : ℕ) where
  orientationRadius : Double
  centerPoint : Fin N → Double

/-- One iteration of the loop of lines 109-113:
`orientationRadius = orientationRadius + m_Orientation[i] * m_Orientation[i]` and
`centerPoint[i] = double(m_Size[i]) / 2.0`. -/
noncomputable def setupStep (s : SteerableFilterFreqImageSource ℝ N) (st : SetupState N)
    (i : Fin N) : SetupState N :=
  { orientationRadius :=
      st.orientationRadius + fin (s.m_Orientation i) * fin (s.m_Orientation i)
    centerPoint := Function.update st.centerPoint i (fin (s.m_Size i : ℝ) / fin 2) }

/-- Lines 101-113: `orientationRadius = 0`, `centerPoint` uninitialised, then the loop
over the dimensions. -/
noncomputable def setupLoop (s : SteerableFilterFreqImageSource ℝ N) : SetupState N :=
  (List.finRange N).foldl (setupStep s)
    { orientationRadius := fin 0, centerPoint := fun _ => nan }

/-- State of the loop of lines 123-128: the array `dist` and the running sums
`dotProduct` and `radius`. -/
structure PixelState (N : ℕ) where
  dist : Fin N → Double
  dotProduct : Double
  radius : Double

/-- One iteration of the loop of lines 123-128:
`dist[i] = (double(index[i]) - centerPoint[i]) / double(m_Size[i])`,
`dotProduct = dotProduct + m_Orientation[i] * dist[i]` and
`radius = radius + (dist[i] * dist[i])`. -/
noncomputable def pixelStep (s : SteerableFilterFreqImageSource ℝ N)
    (centerPoint : Fin N → Double) (index : Fin N → ℤ) (st : PixelState N) (i : Fin N) :
    PixelState N :=
  let dist := Function.update st.dist i
    ((fin (index i : ℝ) - centerPoint i) / fin (s.m_Size i : ℝ))
  { dist := dist
    dotProduct := st.dotProduct + fin (s.m_Orientation i) * dist i
    radius := st.radius + dist i * dist i }

/-- Lines 120-128 for one index: `radius = 0`, `dotProduct = 0` (`dist` holds whatever
the previous pixel left, every entry is written before it is read), then the loop over
the dimensions. -/
noncomputable def pixelLoop (s : SteerableFilterFreqImageSource ℝ N)
    (centerPoint : Fin N → Double) (index : Fin N → ℤ) : PixelState N :=
  (List.finRange N).foldl (pixelStep s centerPoint index)
    { dist := fun _ => nan, dotProduct := fin 0, radius := fin 0 }

/-- Lines 131-138, from the computed `dotProduct` and `radius` on:
`dangle = acos(dotProduct)`, the Gaussian of the angle, replaced by `1.0` when
`radius == 0`. -/
noncomputable def angularGaussian (dotProduct radius angularSigma : Double) : Double :=
  let dangle := acos dotProduct
  let angularGaussianValue :=
    exp (-((dangle * dangle) / (fin 2 * angularSigma * angularSigma)))
  if Double.eq radius (fin 0) = true then fin 1 else angularGaussianValue

/-- The body of the pixel loop (lines 119-140): the value written at `index`, given the
values computed before the loop. -/
noncomputable def pixelValue (s : SteerableFilterFreqImageSource ℝ N)
    (angularSigma orientationRadius : Double) (centerPoint : Fin N → Double)
    (index : Fin N → ℤ) : Double :=
  let st := pixelLoop s centerPoint index
  let radius := sqrt st.radius
  let dotProduct := st.dotProduct / (radius * orientationRadius)
  angularGaussian dotProduct radius angularSigma

/-- Line 97: `angularSigma = (m_AngularBandwidth / 2) / 1.1774`. -/
noncomputable def angularSigma (s : SteerableFilterFreqImageSource ℝ N) : Double :=
  (fin s.m_AngularBandwidth / fin 2) / fin 1.1774

/-- The value `DynamicThreadedGenerateData` writes at `index`: the loop body with the
values of lines 97 and 109-114. -/
noncomputable def evaluate (s : SteerableFilterFreqImageSource ℝ N) (index : Fin N → ℤ) :
    Double :=
  let st := setupLoop s
  pixelValue s (angularSigma s) (sqrt st.orientationRadius) st.centerPoint index

end Kernel

end SteerableFilterFreqImageSource

/-! ## Regions and their iteration -/

/-- `ImageRegion::IsInside(index)`: the index lies in `[index, index + size)` in every
dimension. -/
def ImageRegion.IsInside {N : ℕ} (r : ImageRegion N) (c : Fin N → ℤ) : Prop :=
  ∀ d, r.index d ≤ c d ∧ c d < r.index d + (r.size d : ℤ)

/-- The indices of the box with the given start and size, in the order in which
`ImageRegionIteratorWithIndex` walks them: the first dimension varies fastest. -/
def boxIndices : (n : ℕ) → (Fin n → ℤ) → (Fin n → ℕ) → List (Fin n → ℤ)
  | 0, _, _ => [fun i => i.elim0]
  | n + 1, start, size =>
    (List.range (size (Fin.last n))).flatMap fun k =>
      (boxIndices n (Fin.init start) (Fin.init size)).map fun idx =>
        @Fin.snoc n (fun _ => ℤ) idx (start (Fin.last n) + (k : ℤ))

/-- The sequence of indices an `ImageRegionIteratorWithIndex` over the region visits
(`GoToBegin`, `++`, `IsAtEnd`). -/
def ImageRegion.indices {N : ℕ} (r : ImageRegion N) : List (Fin N → ℤ) :=
  boxIndices N r.index r.size

namespace SteerableFilterFreqImageSource

variable {R : Type} {N : ℕ}

/-- `DynamicThreadedGenerateData(outputRegionForThread)` (lines 79-142) as a function on
the pixel buffer of the output image: for every index of the region, in iterator order,
the loop body's value is stored at that index. -/
noncomputable def DynamicThreadedGenerateData (s : SteerableFilterFreqImageSource ℝ N)
    (outputRegionForThread : ImageRegion N) (buffer : (Fin N → ℤ) → Double) :
    (Fin N → ℤ) → Double :=
  let angularSigma := angularSigma s
  let st := setupLoop s
  let orientationRadius := Double.sqrt st.orientationRadius
  outputRegionForThread.indices.foldl
    (fun buf index =>
      Function.update buf index
        (pixelValue s angularSigma orientationRadius st.centerPoint index))
    buffer

/-! ## `GenerateOutputInformation` -/

/-- `GenerateOutputInformation()` (lines 57-76): the largest possible region gets index
`{0}` and the size `m_Size`; spacing, origin and direction are set from the members. -/
def GenerateOutputInformation (s : SteerableFilterFreqImageSource R N)
    (output : OutputImage R N) : OutputImage R N :=
  let index : Fin N → ℤ := fun _ => 0
  let size : Fin N → ℕ := fun i => s.m_Size i
  let largestPossibleRegion : ImageRegion N := { index := index, size := size }
  { output with
    largestPossibleRegion := largestPossibleRegion
    spacing := s.m_Spacing
    origin := s.m_Origin
    direction := s.m_Direction }

/-! ## The setters -/

/-- The value of `i` after a loop `for (i = 0; i < N; i++) { if (differs i) break; }`:
the first dimension at which `differs` holds, or `N` when there is none. -/
def firstDifference (differs : Fin N → Bool) : ℕ :=
  match (List.finRange N).find? differs with
  | some i => i.val
  | none => N

/-- The loop `for (i = 0; i < N; i++) { dst[i] = src[i]; }`. -/
def copyLoop {α : Type} (src : Fin N → α) (dst : Fin N → α) : Fin N → α :=
  (List.finRange N).foldl (fun a i => Function.update a i (src i)) dst

/-- `SetSpacing(const float * spacing)` (lines 145-165); `toDouble` is the conversion
from `float` to `double`. -/
def SetSpacing_float {F : Type} [CppDouble R] (toDouble : F → R)
    (s : SteerableFilterFreqImageSource R N) (spacing : Fin N → F) :
    SteerableFilterFreqImageSource R N :=
  let i := firstDifference fun i => CppDouble.ne (toDouble (spacing i)) (s.m_Spacing i)
  if i < N then
    Modified { s with m_Spacing := copyLoop (fun i => toDouble (spacing i)) s.m_Spacing }
  else s

/-- `SetSpacing(const double * spacing)` (lines 168-188). -/
def SetSpacing_double [CppDouble R] (s : SteerableFilterFreqImageSource R N)
    (spacing : Fin N → R) : SteerableFilterFreqImageSource R N :=
  let i := firstDifference fun i => CppDouble.ne (spacing i) (s.m_Spacing i)
  if i < N then Modified { s with m_Spacing := copyLoop spacing s.m_Spacing } else s

/-- `SetOrigin(const float * origin)` (lines 191-211); `toDouble` is the conversion from
`float` to `double`. -/
def SetOrigin_float {F : Type} [CppDouble R] (toDouble : F → R)
    (s : SteerableFilterFreqImageSource R N) (origin : Fin N → F) :
    SteerableFilterFreqImageSource R N :=
  let i := firstDifference fun i => CppDouble.ne (toDouble (origin i)) (s.m_Origin i)
  if i < N then
    Modified { s with m_Origin := copyLoop (fun i => toDouble (origin i)) s.m_Origin }
  else s

/-- `SetOrigin(const double * origin)` (lines 214-234). -/
def SetOrigin_double [CppDouble R] (s : SteerableFilterFreqImageSource R N)
    (origin : Fin N → R) : SteerableFilterFreqImageSource R N :=
  let i := firstDifference fun i => CppDouble.ne (origin i) (s.m_Origin i)
  if i < N then Modified { s with m_Origin := copyLoop origin s.m_Origin } else s

/-- `SetSize(const SizeValueType * size)` (lines 237-257). -/
def SetSize_ptr (s : SteerableFilterFreqImageSource R N) (size : Fin N → ℕ) :
    SteerableFilterFreqImageSource R N :=
  let i := firstDifference fun i => decide (size i ≠ s.m_Size i)
  if i < N then Modified { s with m_Size := copyLoop size s.m_Size } else s

/-- `SetSize(const SizeType size)` (lines 260-280). -/
def SetSize_SizeType (s : SteerableFilterFreqImageSource R N) (size : Fin N → ℕ) :
    SteerableFilterFreqImageSource R N :=
  let i := firstDifference fun i => decide (size i ≠ s.m_Size i)
  if i < N then Modified { s with m_Size := copyLoop size s.m_Size } else s

end SteerableFilterFreqImageSource

/-! ## Real-valued description of the kernel

The quantities of the kernel as real numbers; the lemmas below show that the code
computes them whenever no size is zero. -/

namespace SteerableFilterFreqImageSource

variable {N : ℕ}

/-- The invariants of a valid parameter set: every size at least one, a non-zero
orientation vector and a positive angular bandwidth. -/
def Valid (s : SteerableFilterFreqImageSource ℝ N) : Prop :=
  (∀ d, 1 ≤ s.m_Size d) ∧ (∃ d, s.m_Orientation d ≠ 0) ∧ 0 < s.m_AngularBandwidth

/-- The real number stored in `dist[d]`. -/
noncomputable def coord (s : SteerableFilterFreqImageSource ℝ N) (index : Fin N → ℤ)
    (d : Fin N) : ℝ :=
  ((index d : ℝ) - (s.m_Size d : ℝ) / 2) / (s.m_Size d : ℝ)

/-- The real number accumulated in `dotProduct` by the pixel loop. -/
noncomputable def dotSum (s : SteerableFilterFreqImageSource ℝ N) (index : Fin N → ℤ) : ℝ :=
  ∑ d, s.m_Orientation d * coord s index d

/-- The real number accumulated in `radius` by the pixel loop (before the root). -/
noncomputable def radiusSq (s : SteerableFilterFreqImageSource ℝ N) (index : Fin N → ℤ) :
    ℝ :=
  ∑ d, coord s index d * coord s index d

/-- The real number accumulated in `orientationRadius` (before the root). -/
noncomputable def orientationSq (s : SteerableFilterFreqImageSource ℝ N) : ℝ :=
  ∑ d, s.m_Orientation d * s.m_Orientation d

/-- The quotient `dotProduct / (radius * orientationRadius)` as a real number. -/
noncomputable def cosAngle (s : SteerableFilterFreqImageSource ℝ N) (index : Fin N → ℤ) :
    ℝ :=
  dotSum s index / (Real.sqrt (radiusSq s index) * Real.sqrt (orientationSq s))

/-- The real number `(m_AngularBandwidth / 2) / 1.1774`. -/
noncomputable def sigmaReal (s : SteerableFilterFreqImageSource ℝ N) : ℝ :=
  (s.m_AngularBandwidth / 2) / 1.1774

/-- The Gaussian of the angle `a` as line 134 computes it. -/
noncomputable def gaussOfAngle (sigma a : ℝ) : ℝ :=
  Real.exp (-((a * a) / (2 * sigma * sigma)))

end SteerableFilterFreqImageSource

/-! ## The 8 × 8 example -/

/-- The two-dimensional source with size `[8, 8]`, orientation `[1, 0]` and angular
bandwidth `π`; spacing, origin and direction are the defaults. -/
noncomputable def exampleSource : SteerableFilterFreqImageSource ℝ 2 :=
  { m_Size := ![8, 8]
    m_Spacing := ![1, 1]
    m_Origin := ![0, 0]
    m_Direction := fun i j => if i = j then 1 else 0
    m_Orientation := ![1, 0]
    m_AngularBandwidth := Real.pi
    m_MTime := 0 }

/-- The extent `[0, 8) × [0, 8)` of the example. -/
def exampleExtent : ImageRegion 2 :=
  { index := ![0, 0], size := ![8, 8] }

/-- The buffer that `DynamicThreadedGenerateData` leaves for the example, called once
with the whole extent on a buffer holding not-a-number everywhere. -/
noncomputable def exampleOutput : (Fin 2 → ℤ) → Double :=
  SteerableFilterFreqImageSource.DynamicThreadedGenerateData exampleSource exampleExtent
    fun _ => Double.nan

/-! ## Reference definition of the kernel value

The kernel value as the specification words it, to be compared with what the code
computes. -/

/-- The centre-relative, size-normalised coordinate
`coord[d] = (index[d] - size[d]/2) / size[d]`, with a real (not truncated) half. -/
noncomputable def referenceCoord {N : ℕ} (size : Fin N → ℕ) (index : Fin N → ℤ)
    (d : Fin N) : ℝ :=
  ((index d : ℝ) - (size d : ℝ) / 2) / (size d : ℝ)

/-- The Euclidean norm of a vector. -/
noncomputable def referenceNorm {N : ℕ} (v : Fin N → ℝ) : ℝ :=
  Real.sqrt (∑ d, v d ^ 2)

/-- The dot product of two vectors. -/
noncomputable def referenceDot {N : ℕ} (u v : Fin N → ℝ) : ℝ :=
  ∑ d, u d * v d

/-- The angle `arccos(dot(orientation, coord) / (norm(coord) * norm(orientation)))`. -/
noncomputable def referenceAngle {N : ℕ} (size : Fin N → ℕ) (orientation : Fin N → ℝ)
    (index : Fin N → ℤ) : ℝ :=
  Real.arccos (referenceDot orientation (referenceCoord size index) /
    (referenceNorm (referenceCoord size index) * referenceNorm orientation))

/-- The reference value `exp(-(angle^2) / (2 * sigma^2))` with
`sigma = (angularBandwidth / 2) / 1.1774`. -/
noncomputable def referenceValue {N : ℕ} (size : Fin N → ℕ) (orientation : Fin N → ℝ)
    (angularBandwidth : ℝ) (index : Fin N → ℤ) : ℝ :=
  let angle := referenceAngle size orientation index
  let sigma := (angularBandwidth / 2) / 1.1774
  Real.exp (-(angle ^ 2) / (2 * sigma ^ 2))

/-! ## The constructor, and the intermediate values of the pixel loop -/

namespace SteerableFilterFreqImageSource

variable {R : Type} {N : ℕ}

/-- One iteration of the constructor's loop (lines 33-38): `m_Size[i] = 64`,
`m_Spacing[i] = 1.0` and `m_Origin[i] = 0.0`. -/
def constructorStep [Zero R] [One R] (st : SteerableFilterFreqImageSource R N) (i : Fin N) :
    SteerableFilterFreqImageSource R N :=
  { st with
    m_Size := Function.update st.m_Size i 64
    m_Spacing := Function.update st.m_Spacing i 1
    m_Origin := Function.update st.m_Origin i 0 }

/-- The constructor (lines 29-42), as a function of the object before the constructor
body runs: the loop over the dimensions, then `m_Direction.SetIdentity()`.  The body
assigns neither `m_Orientation` nor `m_AngularBandwidth`. -/
def Constructor [Zero R] [One R] (raw : SteerableFilterFreqImageSource R N) :
    SteerableFilterFreqImageSource R N :=
  let st := (List.finRange N).foldl constructorStep raw
  { st with m_Direction := fun i j => if i = j then 1 else 0 }

/-- The value of `radius` after line 129 for the given index. -/
noncomputable def computedRadius (s : SteerableFilterFreqImageSource ℝ N)
    (index : Fin N → ℤ) : Double :=
  Double.sqrt (pixelLoop s (setupLoop s).centerPoint index).radius

/-- The divisor `radius * orientationRadius` of line 130 for the given index. -/
noncomputable def computedDivisor (s : SteerableFilterFreqImageSource ℝ N)
    (index : Fin N → ℤ) : Double :=
  computedRadius s index * Double.sqrt (setupLoop s).orientationRadius

/-- The value of `dotProduct` after line 130 for the given index: the argument of
`acos`. -/
noncomputable def computedDotProduct (s : SteerableFilterFreqImageSource ℝ N)
    (index : Fin N → ℤ) : Double :=
  (pixelLoop s (setupLoop s).centerPoint index).dotProduct / computedDivisor s index

end SteerableFilterFreqImageSource

/-! ## An object holding doubles with not-a-number -/

/-- A one-dimensional object whose members are doubles in the sense of `Double` (so that
they can hold not-a-number): size `64`, spacing `1.0`, origin `0.0`. -/
noncomputable def nanExampleSource : SteerableFilterFreqImageSource Double 1 :=
  { m_Size := ![64]
    m_Spacing := ![Double.fin 1]
    m_Origin := ![Double.fin 0]
    m_Direction := fun _ _ => Double.fin 1
    m_Orientation := ![Double.fin 1]
    m_AngularBandwidth := Double.fin 1
    m_MTime := 0 }

/-! ## The kernel in binary64 arithmetic

The kernel once more, with the arithmetic as a parameter, so that it can be evaluated
both exactly and with every operation rounded to binary64. -/

namespace Double

noncomputable section

/-- Rounding of a real to the nearest integer, ties to the even one. -/
def roundHalfEven (y : ℝ) : ℤ :=
  if y - ⌊y⌋ < 1 / 2 then ⌊y⌋
  else if 1 / 2 < y - ⌊y⌋ then ⌊y⌋ + 1
  else if ⌊y⌋ % 2 = 0 then ⌊y⌋ else ⌊y⌋ + 1

/-- The spacing of the binary64 numbers in the binade of `x`: `2 ^ (e - 52)` for
`2 ^ e ≤ |x| < 2 ^ (e + 1)`, with `e` at least `-1022` (subnormal range). -/
def ulp (x : ℝ) : ℝ :=
  (2 : ℝ) ^ (max (Int.log 2 |x|) (-1022) - 52)

/-- The binary64 number nearest to the real `x`: round to nearest, ties to even, with
overflow to an infinity. -/
def round64 (x : ℝ) : Double :=
  if (2 : ℝ) ^ (1024 : ℤ) ≤ |(roundHalfEven (x / ulp x) : ℝ) * ulp x| then
    if 0 < x then posInf else negInf
  else fin ((roundHalfEven (x / ulp x) : ℝ) * ulp x)

/-- Rounding of the exact result of an operation: a finite result is rounded to
binary64, an infinity or a not-a-number is kept. -/
def roundResult : Double → Double
  | fin x => round64 x
  | posInf => posInf
  | negInf => negInf
  | nan => nan

end

end Double

/-- The arithmetic of the `double` operations the kernel uses: the conversion of an
integer or of a literal to `double`, the four operations, unary minus and the library
functions `sqrt`, `acos` and `exp`.  A member of type `double` (an orientation component,
the angular bandwidth) enters the computation as it is held, without conversion. -/
structure Arithmetic where
  ofReal : ℝ → Double
  add : Double → Double → Double
  sub : Double → Double → Double
  mul : Double → Double → Double
  div : Double → Double → Double
  neg : Double → Double
  sqrt : Double → Double
  acos : Double → Double
  exp : Double → Double

/-- Exact arithmetic: the operations of `Double`, without rounding. -/
noncomputable def Arithmetic.exact : Arithmetic where
  ofReal := Double.fin
  add := Double.add
  sub := Double.sub
  mul := Double.mul
  div := Double.div
  neg := Double.neg
  sqrt := Double.sqrt
  acos := Double.acos
  exp := Double.exp

/-- IEEE-754 binary64 arithmetic: every operation returns its exact result rounded to the
nearest binary64 number.  The library functions `acos` and `exp` are taken to be
correctly rounded as well; off their domain and on not-a-number they behave as the exact
ones. -/
noncomputable def Arithmetic.binary64 : Arithmetic where
  ofReal := Double.round64
  add a b := Double.roundResult (Double.add a b)
  sub a b := Double.roundResult (Double.sub a b)
  mul a b := Double.roundResult (Double.mul a b)
  div a b := Double.roundResult (Double.div a b)
  neg := Double.neg
  sqrt a := Double.roundResult (Double.sqrt a)
  acos a := Double.roundResult (Double.acos a)
  exp a := Double.roundResult (Double.exp a)

namespace SteerableFilterFreqImageSource

variable {N : ℕ}

open Double

/-- One iteration of the loop of lines 109-113, in the arithmetic `A`. -/
noncomputable def setupStepWith (A : Arithmetic) (s : SteerableFilterFreqImageSource ℝ N)
    (st : SetupState N) (i : Fin N) : SetupState N :=
  { orientationRadius :=
      A.add st.orientationRadius (A.mul (fin (s.m_Orientation i)) (fin (s.m_Orientation i)))
    centerPoint :=
      Function.update st.centerPoint i (A.div (A.ofReal (s.m_Size i : ℝ)) (A.ofReal 2)) }

/-- Lines 101-113 in the arithmetic `A`. -/
noncomputable def setupLoopWith (A : Arithmetic) (s : SteerableFilterFreqImageSource ℝ N) :
    SetupState N :=
  (List.finRange N).foldl (setupStepWith A s)
    { orientationRadius := A.ofReal 0, centerPoint := fun _ => nan }

/-- One iteration of the loop of lines 123-128, in the arithmetic `A`. -/
noncomputable def pixelStepWith (A : Arithmetic) (s : SteerableFilterFreqImageSource ℝ N)
    (centerPoint : Fin N → Double) (index : Fin N → ℤ) (st : PixelState N) (i : Fin N) :
    PixelState N :=
  let dist := Function.update st.dist i
    (A.div (A.sub (A.ofReal (index i : ℝ)) (centerPoint i)) (A.ofReal (s.m_Size i : ℝ)))
  { dist := dist
    dotProduct := A.add st.dotProduct (A.mul (fin (s.m_Orientation i)) (dist i))
    radius := A.add st.radius (A.mul (dist i) (dist i)) }

/-- Lines 120-128 for one index, in the arithmetic `A`. -/
noncomputable def pixelLoopWith (A : Arithmetic) (s : SteerableFilterFreqImageSource ℝ N)
    (centerPoint : Fin N → Double) (index : Fin N → ℤ) : PixelState N :=
  (List.finRange N).foldl (pixelStepWith A s centerPoint index)
    { dist := fun _ => nan, dotProduct := A.ofReal 0, radius := A.ofReal 0 }

/-- Lines 131-138 in the arithmetic `A`. -/
noncomputable def angularGaussianWith (A : Arithmetic)
    (dotProduct radius angularSigma : Double) : Double :=
  let dangle := A.acos dotProduct
  let angularGaussianValue :=
    A.exp (A.neg (A.div (A.mul dangle dangle)
      (A.mul (A.mul (A.ofReal 2) angularSigma) angularSigma)))
  if Double.eq radius (A.ofReal 0) = true then A.ofReal 1 else angularGaussianValue

/-- The body of the pixel loop (lines 119-140) in the arithmetic `A`. -/
noncomputable def pixelValueWith (A : Arithmetic) (s : SteerableFilterFreqImageSource ℝ N)
    (angularSigma orientationRadius : Double) (centerPoint : Fin N → Double)
    (index : Fin N → ℤ) : Double :=
  let st := pixelLoopWith A s centerPoint index
  let radius := A.sqrt st.radius
  let dotProduct := A.div st.dotProduct (A.mul radius orientationRadius)
  angularGaussianWith A dotProduct radius angularSigma

/-- Line 97 in the arithmetic `A`. -/
noncomputable def angularSigmaWith (A : Arithmetic) (s : SteerableFilterFreqImageSource ℝ N) :
    Double :=
  A.div (A.div (fin s.m_AngularBandwidth) (A.ofReal 2)) (A.ofReal 1.1774)

/-- The value `DynamicThreadedGenerateData` writes at `index`, in the arithmetic `A`. -/
noncomputable def evaluateWith (A : Arithmetic) (s : SteerableFilterFreqImageSource ℝ N)
    (index : Fin N → ℤ) : Double :=
  let st := setupLoopWith A s
  pixelValueWith A s (angularSigmaWith A s) (A.sqrt st.orientationRadius) st.centerPoint index

/-- `DynamicThreadedGenerateData(outputRegionForThread)` in the arithmetic `A`. -/
noncomputable def DynamicThreadedGenerateDataWith (A : Arithmetic)
    (s : SteerableFilterFreqImageSource ℝ N) (outputRegionForThread : ImageRegion N)
    (buffer : (Fin N → ℤ) → Double) : (Fin N → ℤ) → Double :=
  let angularSigma := angularSigmaWith A s
  let st := setupLoopWith A s
  let orientationRadius := A.sqrt st.orientationRadius
  outputRegionForThread.indices.foldl
    (fun buf index =>
      Function.update buf index
        (pixelValueWith A s angularSigma orientationRadius st.centerPoint index))
    buffer

end SteerableFilterFreqImageSource

/-- The 8 × 8 grid with orientation `[-6, -6]` and angular bandwidth `b`. -/
noncomputable def diagonalSource (b : ℝ) : SteerableFilterFreqImageSource ℝ 2 :=
  { exampleSource with m_Orientation := ![-6, -6], m_AngularBandwidth := b }

/-- The 8 × 8 grid with orientation `[-1, -1]` and angular bandwidth `1`. -/
noncomputable def unitDiagonalSource : SteerableFilterFreqImageSource ℝ 2 :=
  { exampleSource with m_Orientation := ![-1, -1], m_AngularBandwidth := 1 }

/-! ## Arithmetic of `Double` on finite values -/

namespace Double

@[simp] theorem fin_add_fin (a b : ℝ) : fin a + fin b = fin (a + b) := rfl

@[simp] theorem fin_sub_fin (a b : ℝ) : fin a - fin b = fin (a - b) := by
  show add (fin a) (neg (fin b)) = fin (a - b)
  simp [add, neg, sub_eq_add_neg]

@[simp] theorem fin_mul_fin (a b : ℝ) : fin a * fin b = fin (a * b) := rfl

@[simp] theorem neg_fin (a : ℝ) : -fin a = fin (-a) := rfl

theorem fin_div_fin (a b : ℝ) (hb : b ≠ 0) : fin a / fin b = fin (a / b) := by
  show div (fin a) (fin b) = fin (a / b)
  simp [div, hb]

@[simp] theorem zero_div_zero : fin 0 / fin 0 = nan := by
  show div (fin 0) (fin 0) = nan
  simp [div, signedInf]

theorem fin_div_zero (a : ℝ) : fin a / fin 0 = signedInf a := by
  show div (fin a) (fin 0) = signedInf a
  simp [div]

theorem sqrt_fin (a : ℝ) (ha : 0 ≤ a) : sqrt (fin a) = fin (Real.sqrt a) := by
  simp [sqrt, not_lt.mpr ha]

theorem acos_fin (a : ℝ) (h1 : -1 ≤ a) (h2 : a ≤ 1) : acos (fin a) = fin (Real.arccos a) := by
  simp [acos, h1, h2]

theorem acos_fin_of_one_lt (a : ℝ) (h : 1 < a) : acos (fin a) = nan := by
  simp [acos, not_le.mpr h]

theorem acos_fin_of_lt_neg_one (a : ℝ) (h : a < -1) : acos (fin a) = nan := by
  simp [acos, not_le.mpr h]

@[simp] theorem exp_fin (a : ℝ) : exp (fin a) = fin (Real.exp a) := rfl

@[simp] theorem eq_fin_fin (a b : ℝ) : Double.eq (fin a) (fin b) = decide (a = b) := rfl

@[simp] theorem nan_mul (a : Double) : nan * a = nan := by
  show mul nan a = nan
  cases a <;> rfl

@[simp] theorem mul_nan (a : Double) : a * nan = nan := by
  show mul a nan = nan
  cases a <;> rfl

@[simp] theorem nan_div (a : Double) : nan / a = nan := by
  show div nan a = nan
  cases a <;> rfl

@[simp] theorem div_nan (a : Double) : a / nan = nan := by
  show div a nan = nan
  cases a <;> rfl

@[simp] theorem acos_nan : acos nan = nan := rfl

@[simp] theorem exp_nan : exp nan = nan := rfl

@[simp] theorem neg_nan : -nan = nan := rfl

end Double

/-! ## The loops of the kernel in closed form -/

namespace SteerableFilterFreqImageSource

variable {N : ℕ}

open Double

/-- The setup loop run over any list of dimensions, from a finite running sum. -/
theorem foldl_setupStep (s : SteerableFilterFreqImageSource ℝ N) (l : List (Fin N))
    (a : ℝ) (cp : Fin N → Double) :
    l.foldl (setupStep s) { orientationRadius := fin a, centerPoint := cp } =
      { orientationRadius := fin (a + (l.map fun i => s.m_Orientation i * s.m_Orientation i).sum)
        centerPoint := fun j => if j ∈ l then fin ((s.m_Size j : ℝ) / 2) else cp j } := by
  induction l generalizing a cp with
  | nil => simp
  | cons x xs ih =>
    have h2 : fin (s.m_Size x : ℝ) / fin 2 = fin ((s.m_Size x : ℝ) / 2) :=
      fin_div_fin _ _ (by norm_num)
    simp only [List.foldl_cons, setupStep, fin_mul_fin, fin_add_fin, h2, ih, List.map_cons,
      List.sum_cons, List.mem_cons, add_assoc]
    congr 1
    funext j
    by_cases hjx : j = x
    · subst hjx
      simp
    · simp [hjx, Function.update_noteq hjx]

/-- The setup loop leaves the sum of the squared orientation components and the halved
sizes. -/
theorem setupLoop_eq (s : SteerableFilterFreqImageSource ℝ N) :
    setupLoop s =
      { orientationRadius := fin (orientationSq s)
        centerPoint := fun j => fin ((s.m_Size j : ℝ) / 2) } := by
  unfold setupLoop
  rw [foldl_setupStep]
  simp [orientationSq, Fin.sum_univ_def]

/-- The pixel loop run over any list of dimensions, from finite running sums, when no
size is zero and `centerPoint` holds the halved sizes. -/
theorem foldl_pixelStep (s : SteerableFilterFreqImageSource ℝ N) (index : Fin N → ℤ)
    (hsize : ∀ d, s.m_Size d ≠ 0) (l : List (Fin N)) (a b : ℝ) (dist : Fin N → Double) :
    l.foldl (pixelStep s (fun j => fin ((s.m_Size j : ℝ) / 2)) index)
        { dist := dist, dotProduct := fin a, radius := fin b } =
      { dist := fun j => if j ∈ l then fin (coord s index j) else dist j
        dotProduct := fin (a + (l.map fun i => s.m_Orientation i * coord s index i).sum)
        radius := fin (b + (l.map fun i => coord s index i * coord s index i).sum) } := by
  induction l generalizing a b dist with
  | nil => simp
  | cons x xs ih =>
    have hx : (s.m_Size x : ℝ) ≠ 0 := Nat.cast_ne_zero.mpr (hsize x)
    have hd : (fin (index x : ℝ) - fin ((s.m_Size x : ℝ) / 2)) / fin (s.m_Size x : ℝ) =
        fin (coord s index x) := by
      rw [fin_sub_fin, fin_div_fin _ _ hx]
      rfl
    simp only [List.foldl_cons, pixelStep, hd, Function.update_same, fin_mul_fin, fin_add_fin,
      ih, List.map_cons, List.sum_cons, List.mem_cons, add_assoc]
    congr 1
    funext j
    by_cases hjx : j = x
    · subst hjx
      simp
    · simp [hjx, Function.update_noteq hjx]

/-- When no size is zero the pixel loop leaves the normalised coordinates, their dot
product with the orientation and the sum of their squares. -/
theorem pixelLoop_eq (s : SteerableFilterFreqImageSource ℝ N) (index : Fin N → ℤ)
    (hsize : ∀ d, s.m_Size d ≠ 0) :
    pixelLoop s (fun j => fin ((s.m_Size j : ℝ) / 2)) index =
      { dist := fun j => fin (coord s index j)
        dotProduct := fin (dotSum s index)
        radius := fin (radiusSq s index) } := by
  unfold pixelLoop
  rw [foldl_pixelStep s index hsize]
  simp [dotSum, radiusSq, Fin.sum_univ_def]

end SteerableFilterFreqImageSource

/-! ## The written value in closed form -/

namespace SteerableFilterFreqImageSource

variable {N : ℕ}

open Double

theorem radiusSq_nonneg (s : SteerableFilterFreqImageSource ℝ N) (index : Fin N → ℤ) :
    0 ≤ radiusSq s index :=
  Finset.sum_nonneg fun d _ => mul_self_nonneg (coord s index d)

theorem orientationSq_nonneg (s : SteerableFilterFreqImageSource ℝ N) :
    0 ≤ orientationSq s :=
  Finset.sum_nonneg fun d _ => mul_self_nonneg (s.m_Orientation d)

theorem radiusSq_eq_zero_iff (s : SteerableFilterFreqImageSource ℝ N) (index : Fin N → ℤ) :
    radiusSq s index = 0 ↔ ∀ d, coord s index d = 0 := by
  unfold radiusSq
  rw [Finset.sum_eq_zero_iff_of_nonneg fun d _ => mul_self_nonneg (coord s index d)]
  simp

theorem orientationSq_eq_zero_iff (s : SteerableFilterFreqImageSource ℝ N) :
    orientationSq s = 0 ↔ ∀ d, s.m_Orientation d = 0 := by
  unfold orientationSq
  rw [Finset.sum_eq_zero_iff_of_nonneg fun d _ => mul_self_nonneg (s.m_Orientation d)]
  simp

theorem coord_eq_zero_iff (s : SteerableFilterFreqImageSource ℝ N) (index : Fin N → ℤ)
    (d : Fin N) (hd : s.m_Size d ≠ 0) : coord s index d = 0 ↔ 2 * index d = (s.m_Size d : ℤ) := by
  have hx : (s.m_Size d : ℝ) ≠ 0 := Nat.cast_ne_zero.mpr hd
  unfold coord
  rw [div_eq_zero_iff]
  constructor
  · rintro (h | h)
    · have h2 : (2 : ℝ) * (index d : ℝ) = (s.m_Size d : ℝ) := by linarith
      exact_mod_cast h2
    · exact absurd h hx
  · intro h
    left
    have h2 : (2 : ℝ) * (index d : ℝ) = (s.m_Size d : ℝ) := by exact_mod_cast h
    linarith

theorem angularSigma_eq (s : SteerableFilterFreqImageSource ℝ N) :
    angularSigma s = fin (sigmaReal s) := by
  unfold angularSigma sigmaReal
  rw [fin_div_fin _ _ (by norm_num), fin_div_fin _ _ (by norm_num)]

/-- The written value, when no size is zero, in terms of the real quantities: the setup
values and the two running sums are finite. -/
theorem evaluate_eq_angularGaussian (s : SteerableFilterFreqImageSource ℝ N)
    (index : Fin N → ℤ) (hsize : ∀ d, s.m_Size d ≠ 0) :
    evaluate s index =
      angularGaussian
        (fin (dotSum s index) /
          fin (Real.sqrt (radiusSq s index) * Real.sqrt (orientationSq s)))
        (fin (Real.sqrt (radiusSq s index))) (fin (sigmaReal s)) := by
  unfold evaluate pixelValue
  simp only [setupLoop_eq, pixelLoop_eq s index hsize, angularSigma_eq,
    sqrt_fin _ (radiusSq_nonneg s index), sqrt_fin _ (orientationSq_nonneg s), fin_mul_fin]

/-- At an index whose normalised coordinates all vanish the written value is `1.0`. -/
theorem evaluate_of_radiusSq_eq_zero (s : SteerableFilterFreqImageSource ℝ N)
    (index : Fin N → ℤ) (hsize : ∀ d, s.m_Size d ≠ 0) (hr : radiusSq s index = 0) :
    evaluate s index = fin 1 := by
  rw [evaluate_eq_angularGaussian s index hsize]
  simp [angularGaussian, hr]

/-- Cauchy-Schwarz for the kernel: the dot product is bounded by the product of the two
norms. -/
theorem abs_dotSum_le (s : SteerableFilterFreqImageSource ℝ N) (index : Fin N → ℤ) :
    |dotSum s index| ≤ Real.sqrt (radiusSq s index) * Real.sqrt (orientationSq s) := by
  rw [← Real.sqrt_mul (radiusSq_nonneg s index)]
  apply Real.abs_le_sqrt
  have h := Finset.sum_mul_sq_le_sq_mul_sq Finset.univ (fun d => s.m_Orientation d)
    (fun d => coord s index d)
  unfold dotSum radiusSq orientationSq
  simp only [pow_two] at h ⊢
  linarith

theorem cosAngle_mem (s : SteerableFilterFreqImageSource ℝ N) (index : Fin N → ℤ) :
    -1 ≤ cosAngle s index ∧ cosAngle s index ≤ 1 := by
  have h := abs_dotSum_le s index
  have hnn : 0 ≤ Real.sqrt (radiusSq s index) * Real.sqrt (orientationSq s) :=
    mul_nonneg (Real.sqrt_nonneg _) (Real.sqrt_nonneg _)
  rw [← abs_le]
  unfold cosAngle
  rw [abs_div, abs_of_nonneg hnn]
  exact div_le_one_of_le₀ h hnn

/-- The written value away from the centre, for a non-zero orientation and a non-zero
bandwidth: the Gaussian of the angle between the orientation and the coordinate
vector. -/
theorem evaluate_eq_gaussOfAngle (s : SteerableFilterFreqImageSource ℝ N)
    (index : Fin N → ℤ) (hsize : ∀ d, s.m_Size d ≠ 0) (hr : radiusSq s index ≠ 0)
    (ho : orientationSq s ≠ 0) (hb : s.m_AngularBandwidth ≠ 0) :
    evaluate s index =
      fin (gaussOfAngle (sigmaReal s) (Real.arccos (cosAngle s index))) := by
  have hr0 : Real.sqrt (radiusSq s index) ≠ 0 :=
    (Real.sqrt_ne_zero (radiusSq_nonneg s index)).mpr hr
  have ho0 : Real.sqrt (orientationSq s) ≠ 0 :=
    (Real.sqrt_ne_zero (orientationSq_nonneg s)).mpr ho
  have hsig : sigmaReal s ≠ 0 := by
    unfold sigmaReal
    exact div_ne_zero (div_ne_zero hb (by norm_num)) (by norm_num)
  have hden : 2 * sigmaReal s * sigmaReal s ≠ 0 :=
    mul_ne_zero (mul_ne_zero (by norm_num) hsig) hsig
  obtain ⟨h1, h2⟩ := cosAngle_mem s index
  rw [evaluate_eq_angularGaussian s index hsize, fin_div_fin _ _ (mul_ne_zero hr0 ho0)]
  unfold angularGaussian
  have hc : dotSum s index / (Real.sqrt (radiusSq s index) * Real.sqrt (orientationSq s)) =
      cosAngle s index := rfl
  simp only [hc, acos_fin _ h1 h2, fin_mul_fin, fin_div_fin _ _ hden, neg_fin, exp_fin,
    eq_fin_fin, decide_eq_true_eq, hr0, if_false]
  rfl

end SteerableFilterFreqImageSource

/-! ## The iteration over a region -/

/-- The iterator visits exactly the indices of the box. -/
theorem mem_boxIndices (n : ℕ) (start : Fin n → ℤ) (size : Fin n → ℕ) (c : Fin n → ℤ) :
    c ∈ boxIndices n start size ↔ ∀ d, start d ≤ c d ∧ c d < start d + (size d : ℤ) := by
  induction n with
  | zero =>
    simp only [boxIndices, List.mem_singleton]
    constructor
    · intro _ d
      exact d.elim0
    · intro _
      funext d
      exact d.elim0
  | succ n ih =>
    simp only [boxIndices, List.mem_flatMap, List.mem_range, List.mem_map, ih]
    rw [Fin.forall_fin_succ']
    constructor
    · rintro ⟨k, hk, idx, hidx, rfl⟩
      refine ⟨fun j => ?_, ?_⟩
      · simpa [Fin.init] using hidx j
      · simp only [Fin.snoc_last]
        omega
    · rintro ⟨hinit, hlast⟩
      refine ⟨(c (Fin.last n) - start (Fin.last n)).toNat, by omega, Fin.init c,
        fun j => ?_, ?_⟩
      · simpa [Fin.init] using hinit j
      · have hk : start (Fin.last n) + ((c (Fin.last n) - start (Fin.last n)).toNat : ℤ) =
            c (Fin.last n) := by omega
        rw [hk]
        exact Fin.snoc_init_self c

theorem ImageRegion.mem_indices {N : ℕ} (r : ImageRegion N) (c : Fin N → ℤ) :
    c ∈ r.indices ↔ r.IsInside c :=
  mem_boxIndices N r.index r.size c

/-- A loop that stores `f index` at every index of a list leaves `f c` at the cells of
the list and the other cells as they were. -/
theorem foldl_update_apply {ι β : Type} [DecidableEq ι] (f : ι → β) (l : List ι)
    (buf : ι → β) (c : ι) :
    l.foldl (fun b i => Function.update b i (f i)) buf c = if c ∈ l then f c else buf c := by
  induction l generalizing buf with
  | nil => simp
  | cons x xs ih =>
    rw [List.foldl_cons, ih]
    by_cases hcx : c = x
    · subst hcx
      simp
    · simp [hcx, Function.update_noteq hcx]

namespace SteerableFilterFreqImageSource

variable {N : ℕ}

/-- After `DynamicThreadedGenerateData` a cell of the region holds the value of the loop
body at its index, and a cell outside the region is untouched. -/
theorem DynamicThreadedGenerateData_apply (s : SteerableFilterFreqImageSource ℝ N)
    (region : ImageRegion N) (buffer : (Fin N → ℤ) → Double) (c : Fin N → ℤ) :
    DynamicThreadedGenerateData s region buffer c =
      if c ∈ region.indices then evaluate s c else buffer c := by
  unfold DynamicThreadedGenerateData
  exact foldl_update_apply _ _ _ _

theorem DynamicThreadedGenerateData_of_isInside (s : SteerableFilterFreqImageSource ℝ N)
    (region : ImageRegion N) (buffer : (Fin N → ℤ) → Double) (c : Fin N → ℤ)
    (hc : region.IsInside c) :
    DynamicThreadedGenerateData s region buffer c = evaluate s c := by
  rw [DynamicThreadedGenerateData_apply, if_pos ((region.mem_indices c).mpr hc)]

theorem DynamicThreadedGenerateData_of_not_isInside (s : SteerableFilterFreqImageSource ℝ N)
    (region : ImageRegion N) (buffer : (Fin N → ℤ) → Double) (c : Fin N → ℤ)
    (hc : ¬ region.IsInside c) :
    DynamicThreadedGenerateData s region buffer c = buffer c := by
  rw [DynamicThreadedGenerateData_apply,
    if_neg fun h => hc ((region.mem_indices c).mp h)]

end SteerableFilterFreqImageSource

/-! ## The 8 × 8 example evaluated -/

namespace Double

@[simp] theorem fin_lt_fin (a b : ℝ) : fin a < fin b ↔ a < b := Iff.rfl

end Double

namespace SteerableFilterFreqImageSource

open Double

theorem gaussOfAngle_zero (sigma : ℝ) : gaussOfAngle sigma 0 = 1 := by
  simp [gaussOfAngle]

/-- For a non-zero `sigma` the Gaussian strictly decreases in the angle on `[0, ∞)`. -/
theorem gaussOfAngle_lt (sigma a b : ℝ) (hs : sigma ≠ 0) (ha : 0 ≤ a) (hab : a < b) :
    gaussOfAngle sigma b < gaussOfAngle sigma a := by
  unfold gaussOfAngle
  have hden : 0 < 2 * sigma * sigma := by
    have := mul_self_pos.mpr hs
    linarith
  apply Real.exp_lt_exp.mpr
  apply neg_lt_neg
  apply div_lt_div_of_pos_right _ hden
  nlinarith

theorem exampleSource_sizes : ∀ d, exampleSource.m_Size d ≠ 0 := by
  intro d
  fin_cases d <;> simp [exampleSource]

theorem exampleSource_orientationSq : orientationSq exampleSource = 1 := by
  simp [orientationSq, exampleSource, Fin.sum_univ_two]

theorem exampleSource_sigma_ne_zero : sigmaReal exampleSource ≠ 0 := by
  unfold sigmaReal
  exact div_ne_zero (div_ne_zero (by simp [exampleSource, Real.pi_ne_zero]) (by norm_num))
    (by norm_num)

theorem exampleSource_coord (index : Fin 2 → ℤ) (d : Fin 2) :
    coord exampleSource index d = ((index d : ℝ) - 4) / 8 := by
  fin_cases d <;> simp [coord, exampleSource] <;> norm_num

theorem exampleOutput_apply (c : Fin 2 → ℤ) (hc : exampleExtent.IsInside c) :
    exampleOutput c = evaluate exampleSource c :=
  DynamicThreadedGenerateData_of_isInside _ _ _ _ hc

theorem exampleOutput_centre : exampleOutput ![4, 4] = fin 1 := by
  rw [exampleOutput_apply _ (by intro d; fin_cases d <;> simp [exampleExtent])]
  apply evaluate_of_radiusSq_eq_zero _ _ exampleSource_sizes
  simp [radiusSq, exampleSource_coord, Fin.sum_univ_two]

theorem sqrt_one_sixteenth : Real.sqrt (1 / 16) = 1 / 4 := by
  rw [show (1 / 16 : ℝ) = (1 / 4) ^ 2 by norm_num]
  exact Real.sqrt_sq (by norm_num)

/-- The example away from the centre: the Gaussian of the angle. -/
theorem exampleOutput_eq (c : Fin 2 → ℤ) (hc : exampleExtent.IsInside c)
    (hr : radiusSq exampleSource c ≠ 0) :
    exampleOutput c =
      fin (gaussOfAngle (sigmaReal exampleSource) (Real.arccos (cosAngle exampleSource c))) := by
  rw [exampleOutput_apply c hc]
  apply evaluate_eq_gaussOfAngle _ _ exampleSource_sizes hr
  · rw [exampleSource_orientationSq]
    exact one_ne_zero
  · simp [exampleSource, Real.pi_ne_zero]

theorem exampleSource_radiusSq (c : Fin 2 → ℤ) :
    radiusSq exampleSource c =
      ((c 0 : ℝ) - 4) / 8 * (((c 0 : ℝ) - 4) / 8) + ((c 1 : ℝ) - 4) / 8 * (((c 1 : ℝ) - 4) / 8) := by
  simp [radiusSq, exampleSource_coord, Fin.sum_univ_two]

theorem exampleSource_dotSum (c : Fin 2 → ℤ) :
    dotSum exampleSource c = ((c 0 : ℝ) - 4) / 8 := by
  simp only [dotSum, exampleSource_coord, Fin.sum_univ_two]
  simp [exampleSource]

theorem exampleOutput_six_four : exampleOutput ![6, 4] = fin 1 := by
  have hrsq : radiusSq exampleSource ![6, 4] = 1 / 16 := by
    rw [exampleSource_radiusSq]; simp; norm_num
  have hcos : cosAngle exampleSource ![6, 4] = 1 := by
    unfold cosAngle
    rw [hrsq, exampleSource_dotSum, exampleSource_orientationSq, sqrt_one_sixteenth]
    simp; norm_num
  rw [exampleOutput_eq _ (by intro d; fin_cases d <;> simp [exampleExtent])
    (by rw [hrsq]; norm_num), hcos, Real.arccos_one, gaussOfAngle_zero]

theorem exampleOutput_two_four :
    exampleOutput ![2, 4] = fin (gaussOfAngle (sigmaReal exampleSource) Real.pi) := by
  have hrsq : radiusSq exampleSource ![2, 4] = 1 / 16 := by
    rw [exampleSource_radiusSq]; simp; norm_num
  have hcos : cosAngle exampleSource ![2, 4] = -1 := by
    unfold cosAngle
    rw [hrsq, exampleSource_dotSum, exampleSource_orientationSq, sqrt_one_sixteenth]
    simp; norm_num
  rw [exampleOutput_eq _ (by intro d; fin_cases d <;> simp [exampleExtent])
    (by rw [hrsq]; norm_num), hcos, Real.arccos_neg_one]

theorem exampleOutput_four_six :
    exampleOutput ![4, 6] = fin (gaussOfAngle (sigmaReal exampleSource) (Real.pi / 2)) := by
  have hrsq : radiusSq exampleSource ![4, 6] = 1 / 16 := by
    rw [exampleSource_radiusSq]; simp; norm_num
  have hcos : cosAngle exampleSource ![4, 6] = 0 := by
    unfold cosAngle
    rw [exampleSource_dotSum]
    simp
  rw [exampleOutput_eq _ (by intro d; fin_cases d <;> simp [exampleExtent])
    (by rw [hrsq]; norm_num), hcos, Real.arccos_zero]

end SteerableFilterFreqImageSource

/-! ## The claims -/

namespace SteerableFilterFreqImageSource

variable {N : ℕ}

open Double

theorem gaussOfAngle_pos (sigma a : ℝ) : 0 < gaussOfAngle sigma a :=
  Real.exp_pos _

theorem gaussOfAngle_le_one (sigma a : ℝ) : gaussOfAngle sigma a ≤ 1 := by
  unfold gaussOfAngle
  rw [← Real.exp_zero]
  apply Real.exp_le_exp.mpr
  have h1 : 0 ≤ a * a := mul_self_nonneg a
  have h2 : 0 ≤ 2 * sigma * sigma := by
    have := mul_self_nonneg sigma
    linarith
  have := div_nonneg h1 h2
  linarith

theorem valid_size_ne_zero {s : SteerableFilterFreqImageSource ℝ N} (hv : Valid s) :
    ∀ d, s.m_Size d ≠ 0 := fun d => Nat.one_le_iff_ne_zero.mp (hv.1 d)

theorem valid_orientationSq_ne_zero {s : SteerableFilterFreqImageSource ℝ N} (hv : Valid s) :
    orientationSq s ≠ 0 := by
  obtain ⟨d, hd⟩ := hv.2.1
  intro h
  exact hd ((orientationSq_eq_zero_iff s).mp h d)

/-- C1, as stated, fails on the code: in the 8 × 8 example with orientation `[1, 0]` and
bandwidth `π` it is not the case that the value at `[4, 4]` is `1.0`, the values at
`[6, 4]` and `[2, 4]` are equal and both exceed the value at `[4, 6]`. -/
theorem axis_symmetry_fails_in_example :
    ¬ (exampleOutput ![4, 4] = fin 1 ∧ exampleOutput ![6, 4] = exampleOutput ![2, 4] ∧
        exampleOutput ![4, 6] < exampleOutput ![6, 4] ∧
        exampleOutput ![4, 6] < exampleOutput ![2, 4]) := by
  rintro ⟨-, -, -, h⟩
  rw [exampleOutput_four_six, exampleOutput_two_four, fin_lt_fin] at h
  have hlt := gaussOfAngle_lt (sigmaReal exampleSource) (Real.pi / 2) Real.pi
    exampleSource_sigma_ne_zero (by positivity) (by linarith [Real.pi_pos])
  exact lt_asymm h hlt

/-- C1, amended: in the 8 × 8 example with orientation `[1, 0]` and bandwidth `π` the
value at `[4, 4]` is `1.0`, the value at `[6, 4]` (on the orientation axis, on the side
the orientation points to) is `1.0` and strictly greater than the value at the off-axis
index `[4, 6]`, which is strictly greater than the value at `[2, 4]` (on the axis, on the
opposite side); the values at `[6, 4]` and `[2, 4]` differ. -/
theorem example_axis_values :
    exampleOutput ![4, 4] = fin 1 ∧ exampleOutput ![6, 4] = fin 1 ∧
      exampleOutput ![4, 6] < exampleOutput ![6, 4] ∧
      exampleOutput ![2, 4] < exampleOutput ![4, 6] ∧
      exampleOutput ![6, 4] ≠ exampleOutput ![2, 4] := by
  have h1 := gaussOfAngle_lt (sigmaReal exampleSource) 0 (Real.pi / 2)
    exampleSource_sigma_ne_zero le_rfl (by positivity)
  have h2 := gaussOfAngle_lt (sigmaReal exampleSource) (Real.pi / 2) Real.pi
    exampleSource_sigma_ne_zero (by positivity) (by linarith [Real.pi_pos])
  rw [gaussOfAngle_zero] at h1
  refine ⟨exampleOutput_centre, exampleOutput_six_four, ?_, ?_, ?_⟩
  · rw [exampleOutput_four_six, exampleOutput_six_four, fin_lt_fin]
    exact h1
  · rw [exampleOutput_four_six, exampleOutput_two_four, fin_lt_fin]
    exact h2
  · rw [exampleOutput_six_four, exampleOutput_two_four]
    intro h
    injection h with h
    linarith

/-- C2: whatever the sizes, the orientation (the zero vector included) and the angular
bandwidth, `DynamicThreadedGenerateData` writes exactly `1.0` at an index of the extent
whose normalised coordinate vanishes in every dimension (`2 * index[d] = size[d]`). -/
theorem centre_value_is_one (s : SteerableFilterFreqImageSource ℝ N)
    (region : ImageRegion N) (buffer : (Fin N → ℤ) → Double) (index : Fin N → ℤ)
    (hregion : region.IsInside index)
    (hextent : ∀ d, 0 ≤ index d ∧ index d < (s.m_Size d : ℤ))
    (hcentre : ∀ d, 2 * index d = (s.m_Size d : ℤ)) :
    DynamicThreadedGenerateData s region buffer index = fin 1 := by
  have hsize : ∀ d, s.m_Size d ≠ 0 := by
    intro d h
    have := hextent d
    rw [h] at this
    simp at this
    omega
  rw [DynamicThreadedGenerateData_of_isInside s region buffer index hregion]
  apply evaluate_of_radiusSq_eq_zero s index hsize
  rw [radiusSq_eq_zero_iff]
  intro d
  exact (coord_eq_zero_iff s index d (hsize d)).mpr (hcentre d)

/-- In exact real arithmetic, for a valid parameter set, every value
`DynamicThreadedGenerateData` writes is a finite number `v` with `0 < v ≤ 1`. -/
theorem written_value_in_unit_interval (s : SteerableFilterFreqImageSource ℝ N)
    (hv : Valid s) (region : ImageRegion N) (buffer : (Fin N → ℤ) → Double)
    (index : Fin N → ℤ) (hregion : region.IsInside index) :
    ∃ v : ℝ, DynamicThreadedGenerateData s region buffer index = fin v ∧ 0 < v ∧ v ≤ 1 := by
  rw [DynamicThreadedGenerateData_of_isInside s region buffer index hregion]
  by_cases hr : radiusSq s index = 0
  · exact ⟨1, evaluate_of_radiusSq_eq_zero s index (valid_size_ne_zero hv) hr, one_pos, le_rfl⟩
  · exact ⟨_, evaluate_eq_gaussOfAngle s index (valid_size_ne_zero hv) hr
      (valid_orientationSq_ne_zero hv) (ne_of_gt hv.2.2), gaussOfAngle_pos _ _,
      gaussOfAngle_le_one _ _⟩

/-- C4 (what the code does): the inverse cosine is applied to `dotProduct` as computed,
without a clamp.  For every computed `dotProduct` above `1` or below `-1` the angle is
not-a-number, and away from the centre (`radius == 0` false) so is the written value. -/
theorem angle_not_clamped (x : ℝ) (hx : 1 < x ∨ x < -1) (radius sigma : Double)
    (hr : Double.eq radius (fin 0) = false) :
    acos (fin x) = nan ∧ angularGaussian (fin x) radius sigma = nan := by
  have hacos : acos (fin x) = nan := by
    rcases hx with h | h
    · exact acos_fin_of_one_lt x h
    · exact acos_fin_of_lt_neg_one x h
  refine ⟨hacos, ?_⟩
  unfold angularGaussian
  simp [hacos, hr]

end SteerableFilterFreqImageSource

namespace SteerableFilterFreqImageSource

variable {N : ℕ}

open Double

theorem referenceCoord_eq (s : SteerableFilterFreqImageSource ℝ N) (index : Fin N → ℤ) :
    referenceCoord s.m_Size index = coord s index := rfl

theorem referenceNorm_coord (s : SteerableFilterFreqImageSource ℝ N) (index : Fin N → ℤ) :
    referenceNorm (referenceCoord s.m_Size index) = Real.sqrt (radiusSq s index) := by
  simp only [referenceNorm, referenceCoord_eq, radiusSq, pow_two]

theorem referenceNorm_orientation (s : SteerableFilterFreqImageSource ℝ N) :
    referenceNorm s.m_Orientation = Real.sqrt (orientationSq s) := by
  simp only [referenceNorm, orientationSq, pow_two]

theorem referenceValue_eq (s : SteerableFilterFreqImageSource ℝ N) (index : Fin N → ℤ) :
    referenceValue s.m_Size s.m_Orientation s.m_AngularBandwidth index =
      gaussOfAngle (sigmaReal s) (Real.arccos (cosAngle s index)) := by
  have hangle : referenceAngle s.m_Size s.m_Orientation index =
      Real.arccos (cosAngle s index) := by
    rw [referenceAngle, referenceNorm_coord, referenceNorm_orientation]
    rfl
  simp only [referenceValue, hangle, gaussOfAngle, sigmaReal, pow_two, neg_div, mul_assoc]

/-- In exact real arithmetic, for a valid parameter set, at every index whose radius (the
norm of the normalised coordinate vector) is not zero, the value
`DynamicThreadedGenerateData` writes is the reference value
`exp(-(angle^2) / (2 * sigma^2))`. -/
theorem written_value_eq_reference (s : SteerableFilterFreqImageSource ℝ N) (hv : Valid s)
    (region : ImageRegion N) (buffer : (Fin N → ℤ) → Double) (index : Fin N → ℤ)
    (hregion : region.IsInside index)
    (hradius : referenceNorm (referenceCoord s.m_Size index) ≠ 0) :
    DynamicThreadedGenerateData s region buffer index =
      fin (referenceValue s.m_Size s.m_Orientation s.m_AngularBandwidth index) := by
  have hr : radiusSq s index ≠ 0 := by
    rw [referenceNorm_coord] at hradius
    exact (Real.sqrt_ne_zero (radiusSq_nonneg s index)).mp hradius
  rw [DynamicThreadedGenerateData_of_isInside s region buffer index hregion, referenceValue_eq]
  exact evaluate_eq_gaussOfAngle s index (valid_size_ne_zero hv) hr
    (valid_orientationSq_ne_zero hv) (ne_of_gt hv.2.2)

end SteerableFilterFreqImageSource

/-! ## The setters and `GenerateOutputInformation` -/

namespace SteerableFilterFreqImageSource

variable {R : Type} {N : ℕ}

/-- The search loop stops before `N` exactly when some dimension differs. -/
theorem firstDifference_lt_iff (differs : Fin N → Bool) :
    firstDifference differs < N ↔ ∃ d, differs d = true := by
  unfold firstDifference
  cases h : (List.finRange N).find? differs with
  | none =>
    simp only [lt_irrefl, false_iff, not_exists]
    intro d
    exact List.find?_eq_none.mp h d (List.mem_finRange d)
  | some i =>
    simp only [i.isLt, true_iff]
    exact ⟨i, List.find?_some h⟩

/-- The copy loop overwrites every element of the destination. -/
theorem copyLoop_eq {α : Type} (src dst : Fin N → α) : copyLoop src dst = src := by
  funext j
  unfold copyLoop
  rw [foldl_update_apply src (List.finRange N) dst j, if_pos (List.mem_finRange j)]

theorem SetSize_ptr_eq (s : SteerableFilterFreqImageSource R N) (size : Fin N → ℕ) :
    SetSize_ptr s size =
      if ∀ d, size d = s.m_Size d then s else Modified { s with m_Size := size } := by
  unfold SetSize_ptr
  simp only [firstDifference_lt_iff, copyLoop_eq, decide_eq_true_eq]
  by_cases h : ∀ d, size d = s.m_Size d
  · rw [if_pos h, if_neg (by simpa using h)]
  · rw [if_neg h, if_pos (by simpa using h)]

theorem SetSize_SizeType_eq (s : SteerableFilterFreqImageSource R N) (size : Fin N → ℕ) :
    SetSize_SizeType s size =
      if ∀ d, size d = s.m_Size d then s else Modified { s with m_Size := size } :=
  SetSize_ptr_eq s size

theorem SetSpacing_float_eq {F : Type} [CppDouble R] (toDouble : F → R)
    (s : SteerableFilterFreqImageSource R N) (spacing : Fin N → F) :
    SetSpacing_float toDouble s spacing =
      if ∀ d, CppDouble.ne (toDouble (spacing d)) (s.m_Spacing d) = false then s
      else Modified { s with m_Spacing := fun d => toDouble (spacing d) } := by
  unfold SetSpacing_float
  simp only [firstDifference_lt_iff, copyLoop_eq]
  by_cases h : ∀ d, CppDouble.ne (toDouble (spacing d)) (s.m_Spacing d) = false
  · rw [if_pos h, if_neg (by simpa using h)]
  · rw [if_neg h, if_pos (by simpa using h)]

theorem SetSpacing_double_eq [CppDouble R] (s : SteerableFilterFreqImageSource R N)
    (spacing : Fin N → R) :
    SetSpacing_double s spacing =
      if ∀ d, CppDouble.ne (spacing d) (s.m_Spacing d) = false then s
      else Modified { s with m_Spacing := spacing } := by
  unfold SetSpacing_double
  simp only [firstDifference_lt_iff, copyLoop_eq]
  by_cases h : ∀ d, CppDouble.ne (spacing d) (s.m_Spacing d) = false
  · rw [if_pos h, if_neg (by simpa using h)]
  · rw [if_neg h, if_pos (by simpa using h)]

theorem SetOrigin_float_eq {F : Type} [CppDouble R] (toDouble : F → R)
    (s : SteerableFilterFreqImageSource R N) (origin : Fin N → F) :
    SetOrigin_float toDouble s origin =
      if ∀ d, CppDouble.ne (toDouble (origin d)) (s.m_Origin d) = false then s
      else Modified { s with m_Origin := fun d => toDouble (origin d) } := by
  unfold SetOrigin_float
  simp only [firstDifference_lt_iff, copyLoop_eq]
  by_cases h : ∀ d, CppDouble.ne (toDouble (origin d)) (s.m_Origin d) = false
  · rw [if_pos h, if_neg (by simpa using h)]
  · rw [if_neg h, if_pos (by simpa using h)]

theorem SetOrigin_double_eq [CppDouble R] (s : SteerableFilterFreqImageSource R N)
    (origin : Fin N → R) :
    SetOrigin_double s origin =
      if ∀ d, CppDouble.ne (origin d) (s.m_Origin d) = false then s
      else Modified { s with m_Origin := origin } := by
  unfold SetOrigin_double
  simp only [firstDifference_lt_iff, copyLoop_eq]
  by_cases h : ∀ d, CppDouble.ne (origin d) (s.m_Origin d) = false
  · rw [if_pos h, if_neg (by simpa using h)]
  · rw [if_neg h, if_pos (by simpa using h)]

end SteerableFilterFreqImageSource

namespace SteerableFilterFreqImageSource

variable {R : Type} {N : ℕ}

theorem SetSpacing_float_spacing {F : Type} [CppDouble R] (toDouble : F → R)
    (s : SteerableFilterFreqImageSource R N) (spacing : Fin N → F) :
    (SetSpacing_float toDouble s spacing).m_Spacing = fun d => toDouble (spacing d) := by
  rw [SetSpacing_float_eq]
  split_ifs with h
  · exact funext fun d => (CppDouble.eq_of_ne_eq_false _ _ (h d)).symm
  · rfl

theorem SetSpacing_double_spacing [CppDouble R] (s : SteerableFilterFreqImageSource R N)
    (spacing : Fin N → R) : (SetSpacing_double s spacing).m_Spacing = spacing := by
  rw [SetSpacing_double_eq]
  split_ifs with h
  · exact funext fun d => (CppDouble.eq_of_ne_eq_false _ _ (h d)).symm
  · rfl

theorem SetOrigin_float_origin {F : Type} [CppDouble R] (toDouble : F → R)
    (s : SteerableFilterFreqImageSource R N) (origin : Fin N → F) :
    (SetOrigin_float toDouble s origin).m_Origin = fun d => toDouble (origin d) := by
  rw [SetOrigin_float_eq]
  split_ifs with h
  · exact funext fun d => (CppDouble.eq_of_ne_eq_false _ _ (h d)).symm
  · rfl

theorem SetOrigin_double_origin [CppDouble R] (s : SteerableFilterFreqImageSource R N)
    (origin : Fin N → R) : (SetOrigin_double s origin).m_Origin = origin := by
  rw [SetOrigin_double_eq]
  split_ifs with h
  · exact funext fun d => (CppDouble.eq_of_ne_eq_false _ _ (h d)).symm
  · rfl

/-- C6: each of the two `SetSize` overloads calls `Modified()` (the modification counter
advances by one) if and only if the argument differs from the held size in at least one
dimension, and leaves the counter alone if and only if the two agree in every
dimension. -/
theorem SetSize_modified_iff (s : SteerableFilterFreqImageSource R N) (size : Fin N → ℕ) :
    (((SetSize_ptr s size).m_MTime = s.m_MTime + 1 ↔ ∃ d, size d ≠ s.m_Size d) ∧
      ((SetSize_ptr s size).m_MTime = s.m_MTime ↔ ∀ d, size d = s.m_Size d)) ∧
    (((SetSize_SizeType s size).m_MTime = s.m_MTime + 1 ↔ ∃ d, size d ≠ s.m_Size d) ∧
      ((SetSize_SizeType s size).m_MTime = s.m_MTime ↔ ∀ d, size d = s.m_Size d)) := by
  rw [SetSize_ptr_eq, SetSize_SizeType_eq]
  by_cases h : ∀ d, size d = s.m_Size d
  · have hne : ¬ ∃ d, size d ≠ s.m_Size d := by simpa using h
    simp [h]
  · have hex : ∃ d, size d ≠ s.m_Size d := by simpa using h
    simp [h, hex, Modified]

/-- C7, as stated, fails on the code: with a not-a-number element in the argument, the
second of two successive calls of `SetSpacing(const double *)` with the same argument
calls `Modified()` again (the comparison `spacing[i] != m_Spacing[i]` of line 175 holds
for a not-a-number against itself). -/
theorem SetSpacing_twice_with_nan_modifies_again :
    (SetSpacing_double (SetSpacing_double nanExampleSource fun _ => Double.nan)
        fun _ => Double.nan).m_MTime =
      (SetSpacing_double nanExampleSource fun _ => Double.nan).m_MTime + 1 := by
  have hne : ∀ (s : SteerableFilterFreqImageSource Double 1),
      ¬ ∀ d : Fin 1, CppDouble.ne ((fun _ => Double.nan : Fin 1 → Double) d) (s.m_Spacing d) =
        false := by
    intro s h
    have := h 0
    simp [CppDouble.ne, Double.eq] at this
  rw [SetSpacing_double_eq (SetSpacing_double nanExampleSource fun _ => Double.nan),
    if_neg (hne _)]
  rfl

/-- C7, amended: `SetSpacing` and `SetOrigin`, in the `float` and the `double` overload,
return the object unchanged (no field changed, no `Modified()`) when no element of the
argument compares `!=` to the held one; otherwise the held value becomes the argument and
`Modified()` is called once.  When no element of the argument is a not-a-number (none
compares `!=` to itself), a second call with the same argument changes nothing, so it
does not call `Modified()`. -/
theorem SetSpacing_SetOrigin_noop_or_replace {F : Type} [CppDouble R] (toDouble : F → R)
    (s : SteerableFilterFreqImageSource R N) (f : Fin N → F) (v : Fin N → R) :
    (SetSpacing_float toDouble s f =
        (if ∀ d, CppDouble.ne (toDouble (f d)) (s.m_Spacing d) = false then s
         else { s with m_Spacing := fun d => toDouble (f d), m_MTime := s.m_MTime + 1 }) ∧
      ((∀ d, CppDouble.ne (toDouble (f d)) (toDouble (f d)) = false) →
        SetSpacing_float toDouble (SetSpacing_float toDouble s f) f =
          SetSpacing_float toDouble s f)) ∧
    (SetSpacing_double s v =
        (if ∀ d, CppDouble.ne (v d) (s.m_Spacing d) = false then s
         else { s with m_Spacing := v, m_MTime := s.m_MTime + 1 }) ∧
      ((∀ d, CppDouble.ne (v d) (v d) = false) →
        SetSpacing_double (SetSpacing_double s v) v = SetSpacing_double s v)) ∧
    (SetOrigin_float toDouble s f =
        (if ∀ d, CppDouble.ne (toDouble (f d)) (s.m_Origin d) = false then s
         else { s with m_Origin := fun d => toDouble (f d), m_MTime := s.m_MTime + 1 }) ∧
      ((∀ d, CppDouble.ne (toDouble (f d)) (toDouble (f d)) = false) →
        SetOrigin_float toDouble (SetOrigin_float toDouble s f) f =
          SetOrigin_float toDouble s f)) ∧
    (SetOrigin_double s v =
        (if ∀ d, CppDouble.ne (v d) (s.m_Origin d) = false then s
         else { s with m_Origin := v, m_MTime := s.m_MTime + 1 }) ∧
      ((∀ d, CppDouble.ne (v d) (v d) = false) →
        SetOrigin_double (SetOrigin_double s v) v = SetOrigin_double s v)) := by
  refine ⟨⟨SetSpacing_float_eq toDouble s f, fun h => ?_⟩,
    ⟨SetSpacing_double_eq s v, fun h => ?_⟩,
    ⟨SetOrigin_float_eq toDouble s f, fun h => ?_⟩, ⟨SetOrigin_double_eq s v, fun h => ?_⟩⟩
  · rw [SetSpacing_float_eq toDouble (SetSpacing_float toDouble s f) f,
      SetSpacing_float_spacing, if_pos h]
  · rw [SetSpacing_double_eq (SetSpacing_double s v) v, SetSpacing_double_spacing, if_pos h]
  · rw [SetOrigin_float_eq toDouble (SetOrigin_float toDouble s f) f, SetOrigin_float_origin,
      if_pos h]
  · rw [SetOrigin_double_eq (SetOrigin_double s v) v, SetOrigin_double_origin, if_pos h]

/-- Two successive calls of `SetSpacing(const double *)` with the argument `[2.0]`, which
holds no not-a-number: the second call changes nothing. -/
theorem SetSpacing_SetOrigin_noop_or_replace_witness :
    SetSpacing_double (SetSpacing_double nanExampleSource ![Double.fin 2]) ![Double.fin 2] =
      SetSpacing_double nanExampleSource ![Double.fin 2] :=
  (SetSpacing_SetOrigin_noop_or_replace id nanExampleSource ![Double.fin 2]
    ![Double.fin 2]).2.1.2 (by
      intro d
      fin_cases d
      simp [CppDouble.ne, Double.eq])

/-- C8: `GenerateOutputInformation` gives the output a largest possible region with start
index `0` and the held size in every dimension, that is the extent `[0, size)`, and sets
the output spacing, origin and direction to the held ones. -/
theorem GenerateOutputInformation_spec (s : SteerableFilterFreqImageSource R N)
    (output : OutputImage R N) :
    (∀ d, (GenerateOutputInformation s output).largestPossibleRegion.index d = 0) ∧
    (∀ d, (GenerateOutputInformation s output).largestPossibleRegion.size d = s.m_Size d) ∧
    (∀ c, (GenerateOutputInformation s output).largestPossibleRegion.IsInside c ↔
      ∀ d, 0 ≤ c d ∧ c d < (s.m_Size d : ℤ)) ∧
    (GenerateOutputInformation s output).spacing = s.m_Spacing ∧
    (GenerateOutputInformation s output).origin = s.m_Origin ∧
    (GenerateOutputInformation s output).direction = s.m_Direction := by
  refine ⟨fun _ => rfl, fun _ => rfl, fun c => ?_, rfl, rfl, rfl⟩
  simp [ImageRegion.IsInside, GenerateOutputInformation]

end SteerableFilterFreqImageSource

/-! ## Independence of the region decomposition, and of the orientation length -/

namespace SteerableFilterFreqImageSource

variable {N : ℕ}

open Double

/-- Running `DynamicThreadedGenerateData` over a list of regions leaves a cell outside
all of them untouched. -/
theorem foldl_DynamicThreadedGenerateData_of_not_mem (s : SteerableFilterFreqImageSource ℝ N)
    (parts : List (ImageRegion N)) (buffer : (Fin N → ℤ) → Double) (c : Fin N → ℤ)
    (h : ¬ ∃ r ∈ parts, r.IsInside c) :
    parts.foldl (fun b r => DynamicThreadedGenerateData s r b) buffer c = buffer c := by
  induction parts generalizing buffer with
  | nil => rfl
  | cons r rs ih =>
    rw [List.foldl_cons, ih _ fun ⟨r', hr', hc⟩ => h ⟨r', List.mem_cons_of_mem _ hr', hc⟩]
    exact DynamicThreadedGenerateData_of_not_isInside s r buffer c
      fun hc => h ⟨r, List.mem_cons_self _ _, hc⟩

/-- Running `DynamicThreadedGenerateData` over a list of regions, one after the other:
a cell inside some region of the list holds the loop body's value. -/
theorem foldl_DynamicThreadedGenerateData_of_mem (s : SteerableFilterFreqImageSource ℝ N)
    (parts : List (ImageRegion N)) (buffer : (Fin N → ℤ) → Double) (c : Fin N → ℤ)
    (h : ∃ r ∈ parts, r.IsInside c) :
    parts.foldl (fun b r => DynamicThreadedGenerateData s r b) buffer c = evaluate s c := by
  induction parts generalizing buffer with
  | nil => simp at h
  | cons r rs ih =>
    rw [List.foldl_cons]
    by_cases h1 : ∃ r ∈ rs, r.IsInside c
    · exact ih _ h1
    · have h2 : r.IsInside c := by
        obtain ⟨r', hr', hc⟩ := h
        rcases List.mem_cons.mp hr' with rfl | hmem
        · exact hc
        · exact absurd ⟨r', hmem, hc⟩ h1
      rw [foldl_DynamicThreadedGenerateData_of_not_mem s rs _ c h1]
      exact DynamicThreadedGenerateData_of_isInside s r buffer c h2

/-- C9: the value `DynamicThreadedGenerateData` writes at an index of the region it is
called with is the loop body's value at that index, whatever the region and the buffer;
when a list of regions covers exactly the whole extent (in particular a partition into
disjoint sub-regions), processing them one after the other in any order leaves the same
buffer, cell for cell, as one call over the whole extent; and a second generation with
the same parameters leaves the buffer as the first one did. -/
theorem generation_independent_of_regions (s : SteerableFilterFreqImageSource ℝ N)
    (whole : ImageRegion N) (parts : List (ImageRegion N))
    (hcover : ∀ c, whole.IsInside c ↔ ∃ r ∈ parts, r.IsInside c) :
    (∀ (region : ImageRegion N) (buffer : (Fin N → ℤ) → Double) (c : Fin N → ℤ),
        region.IsInside c → DynamicThreadedGenerateData s region buffer c = evaluate s c) ∧
    (∀ (order : List (ImageRegion N)) (buffer : (Fin N → ℤ) → Double),
        order.Perm parts →
        order.foldl (fun b r => DynamicThreadedGenerateData s r b) buffer =
          DynamicThreadedGenerateData s whole buffer) ∧
    (∀ buffer : (Fin N → ℤ) → Double,
        DynamicThreadedGenerateData s whole (DynamicThreadedGenerateData s whole buffer) =
          DynamicThreadedGenerateData s whole buffer) ∧
    (∀ (buffer₁ buffer₂ : (Fin N → ℤ) → Double) (c : Fin N → ℤ), whole.IsInside c →
        DynamicThreadedGenerateData s whole buffer₁ c =
          DynamicThreadedGenerateData s whole buffer₂ c) := by
  refine ⟨fun region buffer c hc => DynamicThreadedGenerateData_of_isInside s region buffer c hc,
    fun order buffer hperm => ?_, fun buffer => ?_, fun b₁ b₂ c hc => ?_⟩
  · funext c
    have hiff : (∃ r ∈ order, r.IsInside c) ↔ whole.IsInside c := by
      rw [hcover c]
      constructor
      · rintro ⟨r, hr, hrc⟩
        exact ⟨r, hperm.mem_iff.mp hr, hrc⟩
      · rintro ⟨r, hr, hrc⟩
        exact ⟨r, hperm.mem_iff.mpr hr, hrc⟩
    by_cases h : whole.IsInside c
    · rw [DynamicThreadedGenerateData_of_isInside s whole buffer c h,
        foldl_DynamicThreadedGenerateData_of_mem s order buffer c (hiff.mpr h)]
    · rw [DynamicThreadedGenerateData_of_not_isInside s whole buffer c h,
        foldl_DynamicThreadedGenerateData_of_not_mem s order buffer c fun h2 => h (hiff.mp h2)]
  · funext c
    simp only [DynamicThreadedGenerateData_apply]
    split_ifs <;> rfl
  · rw [DynamicThreadedGenerateData_of_isInside s whole b₁ c hc,
      DynamicThreadedGenerateData_of_isInside s whole b₂ c hc]

/-- Scaling the orientation by `k > 0` scales the dot product by `k`. -/
theorem dotSum_scale (s : SteerableFilterFreqImageSource ℝ N) (k : ℝ) (index : Fin N → ℤ) :
    dotSum { s with m_Orientation := fun d => k * s.m_Orientation d } index =
      k * dotSum s index := by
  simp only [dotSum, coord, Finset.mul_sum, mul_assoc]

theorem orientationSq_scale (s : SteerableFilterFreqImageSource ℝ N) (k : ℝ) :
    orientationSq { s with m_Orientation := fun d => k * s.m_Orientation d } =
      k ^ 2 * orientationSq s := by
  simp only [orientationSq, Finset.mul_sum]
  refine Finset.sum_congr rfl fun d _ => ?_
  ring

theorem cosAngle_scale (s : SteerableFilterFreqImageSource ℝ N) (k : ℝ) (hk : 0 < k)
    (index : Fin N → ℤ) :
    cosAngle { s with m_Orientation := fun d => k * s.m_Orientation d } index =
      cosAngle s index := by
  have hsq : Real.sqrt (k ^ 2 * orientationSq s) = k * Real.sqrt (orientationSq s) := by
    rw [Real.sqrt_mul (sq_nonneg k), Real.sqrt_sq hk.le]
  have hrad : radiusSq { s with m_Orientation := fun d => k * s.m_Orientation d } index =
      radiusSq s index := rfl
  unfold cosAngle
  rw [dotSum_scale, orientationSq_scale, hsq, hrad,
    show Real.sqrt (radiusSq s index) * (k * Real.sqrt (orientationSq s)) =
      k * (Real.sqrt (radiusSq s index) * Real.sqrt (orientationSq s)) by ring]
  exact mul_div_mul_left _ _ (ne_of_gt hk)

/-- In exact real arithmetic, for a valid parameter set and every real `k > 0`, the value
generated with the orientation `k * o` equals the value generated with the orientation
`o`, at every index. -/
theorem orientation_scale_invariant (s : SteerableFilterFreqImageSource ℝ N) (hv : Valid s)
    (k : ℝ) (hk : 0 < k) (region : ImageRegion N) (buffer : (Fin N → ℤ) → Double)
    (index : Fin N → ℤ) (hregion : region.IsInside index) :
    DynamicThreadedGenerateData { s with m_Orientation := fun d => k * s.m_Orientation d }
        region buffer index =
      DynamicThreadedGenerateData s region buffer index := by
  have hsize := valid_size_ne_zero hv
  rw [DynamicThreadedGenerateData_of_isInside _ region buffer index hregion,
    DynamicThreadedGenerateData_of_isInside _ region buffer index hregion]
  by_cases hr : radiusSq s index = 0
  · rw [evaluate_of_radiusSq_eq_zero s index hsize hr]
    exact @evaluate_of_radiusSq_eq_zero N
      { s with m_Orientation := fun d => k * s.m_Orientation d } index hsize hr
  · have ho := valid_orientationSq_ne_zero hv
    have ho2 : orientationSq { s with m_Orientation := fun d => k * s.m_Orientation d } ≠ 0 := by
      rw [orientationSq_scale]
      exact mul_ne_zero (pow_ne_zero 2 (ne_of_gt hk)) ho
    rw [evaluate_eq_gaussOfAngle s index hsize hr ho (ne_of_gt hv.2.2),
      @evaluate_eq_gaussOfAngle N { s with m_Orientation := fun d => k * s.m_Orientation d }
        index hsize hr ho2 (ne_of_gt hv.2.2), cosAngle_scale s k hk]
    rfl

end SteerableFilterFreqImageSource

/-! ## The theorems with hypotheses, applied to the 8 × 8 example -/

namespace SteerableFilterFreqImageSource

open Double

theorem exampleSource_valid : Valid exampleSource := by
  refine ⟨fun d => ?_, ⟨0, ?_⟩, ?_⟩
  · fin_cases d <;> simp [exampleSource]
  · simp [exampleSource]
  · exact Real.pi_pos

theorem exampleExtent_isInside (a b : ℤ) (ha : 0 ≤ a ∧ a < 8) (hb : 0 ≤ b ∧ b < 8) :
    exampleExtent.IsInside ![a, b] := by
  intro d
  fin_cases d
  · simpa [exampleExtent] using ha
  · simpa [exampleExtent] using hb

/-- The centre `[4, 4]` of the 8 × 8 example lies in the extent and holds `1.0`. -/
theorem centre_value_is_one_witness :
    exampleExtent.IsInside ![4, 4] ∧
      DynamicThreadedGenerateData exampleSource exampleExtent (fun _ => nan) ![4, 4] = fin 1 :=
  ⟨exampleExtent_isInside 4 4 (by norm_num) (by norm_num),
    centre_value_is_one exampleSource exampleExtent (fun _ => nan) ![4, 4]
      (exampleExtent_isInside 4 4 (by norm_num) (by norm_num))
      (by intro d; fin_cases d <;> simp [exampleSource])
      (by intro d; fin_cases d <;> simp [exampleSource])⟩

/-- The 8 × 8 example is valid and `[2, 4]` lies in its extent. -/
theorem written_value_in_unit_interval_witness :
    Valid exampleSource ∧ exampleExtent.IsInside ![2, 4] ∧
      ∃ v : ℝ, DynamicThreadedGenerateData exampleSource exampleExtent (fun _ => nan) ![2, 4] =
        fin v ∧ 0 < v ∧ v ≤ 1 :=
  ⟨exampleSource_valid, exampleExtent_isInside 2 4 (by norm_num) (by norm_num),
    written_value_in_unit_interval exampleSource exampleSource_valid exampleExtent
      (fun _ => nan) ![2, 4] (exampleExtent_isInside 2 4 (by norm_num) (by norm_num))⟩

/-- The quotient `1.0000000001` at radius `1/4`: the angle and the value are not-a-number. -/
theorem angle_not_clamped_witness :
    acos (fin 1.0000000001) = nan ∧
      angularGaussian (fin 1.0000000001) (fin (1 / 4)) (fin 1) = nan :=
  angle_not_clamped 1.0000000001 (Or.inl (by norm_num)) (fin (1 / 4)) (fin 1)
    (by simp)

/-- The off-axis index `[4, 6]` of the 8 × 8 example has a non-zero radius. -/
theorem written_value_eq_reference_witness :
    Valid exampleSource ∧ exampleExtent.IsInside ![4, 6] ∧
      DynamicThreadedGenerateData exampleSource exampleExtent (fun _ => nan) ![4, 6] =
        fin (referenceValue ![8, 8] ![1, 0] Real.pi ![4, 6]) :=
  ⟨exampleSource_valid, exampleExtent_isInside 4 6 (by norm_num) (by norm_num),
    written_value_eq_reference exampleSource exampleSource_valid exampleExtent
      (fun _ => nan) ![4, 6] (exampleExtent_isInside 4 6 (by norm_num) (by norm_num))
      (by
        rw [referenceNorm_coord, exampleSource_radiusSq]
        simp
        norm_num)⟩

/-- The 8 × 8 extent split into the halves `[0, 8) × [0, 4)` and `[0, 8) × [4, 8)`,
processed upper half first, gives the buffer of the single call. -/
theorem generation_independent_of_regions_witness :
    [({ index := ![0, 4], size := ![8, 4] } : ImageRegion 2),
        { index := ![0, 0], size := ![8, 4] }].foldl
        (fun b r => DynamicThreadedGenerateData exampleSource r b) (fun _ => nan) =
      exampleOutput :=
  (generation_independent_of_regions exampleSource exampleExtent
    [{ index := ![0, 0], size := ![8, 4] }, { index := ![0, 4], size := ![8, 4] }]
    (by
      intro c
      simp only [ImageRegion.IsInside, Fin.forall_fin_two, exampleExtent, List.mem_cons,
        List.mem_singleton, exists_eq_or_imp, exists_eq_left, List.not_mem_nil, false_and,
        exists_false, or_false, Matrix.cons_val_zero, Matrix.cons_val_one, Matrix.head_cons]
      push_cast
      omega)).2.1 _ _ (List.Perm.swap _ _ _)

/-- The 8 × 8 example with the orientation doubled, at `[6, 4]`. -/
theorem orientation_scale_invariant_witness :
    Valid exampleSource ∧ (0 : ℝ) < 2 ∧ exampleExtent.IsInside ![6, 4] ∧
      DynamicThreadedGenerateData
          { exampleSource with m_Orientation := fun d => 2 * exampleSource.m_Orientation d }
          exampleExtent (fun _ => nan) ![6, 4] =
        DynamicThreadedGenerateData exampleSource exampleExtent (fun _ => nan) ![6, 4] :=
  ⟨exampleSource_valid, by norm_num, exampleExtent_isInside 6 4 (by norm_num) (by norm_num),
    orientation_scale_invariant exampleSource exampleSource_valid 2 (by norm_num)
      exampleExtent (fun _ => nan) ![6, 4]
      (exampleExtent_isInside 6 4 (by norm_num) (by norm_num))⟩

end SteerableFilterFreqImageSource

/-! ## The constructor and the frame of the setters -/

namespace SteerableFilterFreqImageSource

variable {R : Type} {N : ℕ}

/-- The constructor's loop run over any list of dimensions. -/
theorem foldl_constructorStep [Zero R] [One R] (l : List (Fin N))
    (st : SteerableFilterFreqImageSource R N) :
    l.foldl constructorStep st =
      { st with
        m_Size := fun j => if j ∈ l then 64 else st.m_Size j
        m_Spacing := fun j => if j ∈ l then 1 else st.m_Spacing j
        m_Origin := fun j => if j ∈ l then 0 else st.m_Origin j } := by
  induction l generalizing st with
  | nil => simp
  | cons x xs ih =>
    rw [List.foldl_cons, ih]
    simp only [constructorStep, List.mem_cons]
    congr 1 <;>
    · funext j
      by_cases hjx : j = x
      · subst hjx
        simp
      · simp [hjx, Function.update_noteq hjx]

/-- C13: whatever the object held before, after the constructor body the size is `64`,
the spacing `1.0` and the origin `0.0` in every dimension, and the direction is the
identity matrix. -/
theorem Constructor_defaults [Zero R] [One R] (raw : SteerableFilterFreqImageSource R N) :
    (∀ d, (Constructor raw).m_Size d = 64) ∧
    (∀ d, (Constructor raw).m_Spacing d = 1) ∧
    (∀ d, (Constructor raw).m_Origin d = 0) ∧
    (∀ i j, (Constructor raw).m_Direction i j = if i = j then 1 else 0) := by
  unfold Constructor
  rw [foldl_constructorStep]
  refine ⟨fun d => ?_, fun d => ?_, fun d => ?_, fun i j => rfl⟩ <;>
    simp [List.mem_finRange]

end SteerableFilterFreqImageSource

namespace SteerableFilterFreqImageSource

variable {R : Type} {N : ℕ}

theorem SetSize_ptr_size (s : SteerableFilterFreqImageSource R N) (size : Fin N → ℕ) :
    (SetSize_ptr s size).m_Size = size := by
  rw [SetSize_ptr_eq]
  split_ifs with h
  · exact funext fun d => (h d).symm
  · rfl

theorem SetSize_SizeType_size (s : SteerableFilterFreqImageSource R N) (size : Fin N → ℕ) :
    (SetSize_SizeType s size).m_Size = size :=
  SetSize_ptr_size s size

/-- C14: after any of the six setters the targeted member equals the argument (converted
to `double` for the `float` overloads) in every dimension, whether or not `Modified()`
was called, and every other member among size, spacing, origin, direction, orientation
and angular bandwidth is as before. -/
theorem setters_frame {F : Type} [CppDouble R] (toDouble : F → R)
    (s : SteerableFilterFreqImageSource R N) (size : Fin N → ℕ) (f : Fin N → F)
    (v : Fin N → R) :
    ((SetSize_ptr s size).m_Size = size ∧
      (SetSize_ptr s size).m_Spacing = s.m_Spacing ∧
      (SetSize_ptr s size).m_Origin = s.m_Origin ∧
      (SetSize_ptr s size).m_Direction = s.m_Direction ∧
      (SetSize_ptr s size).m_Orientation = s.m_Orientation ∧
      (SetSize_ptr s size).m_AngularBandwidth = s.m_AngularBandwidth) ∧
    ((SetSize_SizeType s size).m_Size = size ∧
      (SetSize_SizeType s size).m_Spacing = s.m_Spacing ∧
      (SetSize_SizeType s size).m_Origin = s.m_Origin ∧
      (SetSize_SizeType s size).m_Direction = s.m_Direction ∧
      (SetSize_SizeType s size).m_Orientation = s.m_Orientation ∧
      (SetSize_SizeType s size).m_AngularBandwidth = s.m_AngularBandwidth) ∧
    ((SetSpacing_float toDouble s f).m_Spacing = (fun d => toDouble (f d)) ∧
      (SetSpacing_float toDouble s f).m_Size = s.m_Size ∧
      (SetSpacing_float toDouble s f).m_Origin = s.m_Origin ∧
      (SetSpacing_float toDouble s f).m_Direction = s.m_Direction ∧
      (SetSpacing_float toDouble s f).m_Orientation = s.m_Orientation ∧
      (SetSpacing_float toDouble s f).m_AngularBandwidth = s.m_AngularBandwidth) ∧
    ((SetSpacing_double s v).m_Spacing = v ∧
      (SetSpacing_double s v).m_Size = s.m_Size ∧
      (SetSpacing_double s v).m_Origin = s.m_Origin ∧
      (SetSpacing_double s v).m_Direction = s.m_Direction ∧
      (SetSpacing_double s v).m_Orientation = s.m_Orientation ∧
      (SetSpacing_double s v).m_AngularBandwidth = s.m_AngularBandwidth) ∧
    ((SetOrigin_float toDouble s f).m_Origin = (fun d => toDouble (f d)) ∧
      (SetOrigin_float toDouble s f).m_Size = s.m_Size ∧
      (SetOrigin_float toDouble s f).m_Spacing = s.m_Spacing ∧
      (SetOrigin_float toDouble s f).m_Direction = s.m_Direction ∧
      (SetOrigin_float toDouble s f).m_Orientation = s.m_Orientation ∧
      (SetOrigin_float toDouble s f).m_AngularBandwidth = s.m_AngularBandwidth) ∧
    ((SetOrigin_double s v).m_Origin = v ∧
      (SetOrigin_double s v).m_Size = s.m_Size ∧
      (SetOrigin_double s v).m_Spacing = s.m_Spacing ∧
      (SetOrigin_double s v).m_Direction = s.m_Direction ∧
      (SetOrigin_double s v).m_Orientation = s.m_Orientation ∧
      (SetOrigin_double s v).m_AngularBandwidth = s.m_AngularBandwidth) := by
  refine ⟨⟨SetSize_ptr_size s size, ?_⟩, ⟨SetSize_SizeType_size s size, ?_⟩,
    ⟨SetSpacing_float_spacing toDouble s f, ?_⟩, ⟨SetSpacing_double_spacing s v, ?_⟩,
    ⟨SetOrigin_float_origin toDouble s f, ?_⟩, ⟨SetOrigin_double_origin s v, ?_⟩⟩
  · rw [SetSize_ptr_eq]
    split_ifs <;> exact ⟨rfl, rfl, rfl, rfl, rfl⟩
  · rw [SetSize_SizeType_eq]
    split_ifs <;> exact ⟨rfl, rfl, rfl, rfl, rfl⟩
  · rw [SetSpacing_float_eq]
    split_ifs <;> exact ⟨rfl, rfl, rfl, rfl, rfl⟩
  · rw [SetSpacing_double_eq]
    split_ifs <;> exact ⟨rfl, rfl, rfl, rfl, rfl⟩
  · rw [SetOrigin_float_eq]
    split_ifs <;> exact ⟨rfl, rfl, rfl, rfl, rfl⟩
  · rw [SetOrigin_double_eq]
    split_ifs <;> exact ⟨rfl, rfl, rfl, rfl, rfl⟩

end SteerableFilterFreqImageSource

/-! ## Independence of the physical metadata -/

namespace SteerableFilterFreqImageSource

variable {N : ℕ}

open Double

theorem setupLoop_congr (s t : SteerableFilterFreqImageSource ℝ N)
    (hsize : s.m_Size = t.m_Size) (horientation : s.m_Orientation = t.m_Orientation) :
    setupLoop s = setupLoop t := by
  unfold setupLoop
  congr 1
  funext st i
  simp only [setupStep, hsize, horientation]

theorem pixelLoop_congr (s t : SteerableFilterFreqImageSource ℝ N)
    (hsize : s.m_Size = t.m_Size) (horientation : s.m_Orientation = t.m_Orientation)
    (centerPoint : Fin N → Double) (index : Fin N → ℤ) :
    pixelLoop s centerPoint index = pixelLoop t centerPoint index := by
  unfold pixelLoop
  congr 1
  funext st i
  simp only [pixelStep, hsize, horientation]

/-- The loop body reads the size, the orientation and the angular bandwidth only. -/
theorem evaluate_congr (s t : SteerableFilterFreqImageSource ℝ N)
    (hsize : s.m_Size = t.m_Size) (horientation : s.m_Orientation = t.m_Orientation)
    (hbandwidth : s.m_AngularBandwidth = t.m_AngularBandwidth) (index : Fin N → ℤ) :
    evaluate s index = evaluate t index := by
  unfold evaluate pixelValue angularSigma
  simp only [setupLoop_congr s t hsize horientation, pixelLoop_congr s t hsize horientation,
    hbandwidth]

/-- C11: two parameter sets that agree on size, orientation and angular bandwidth, and
differ arbitrarily in spacing, origin and direction, make `DynamicThreadedGenerateData`
write the same value at every index: the resulting buffers are equal. -/
theorem generation_independent_of_metadata (s t : SteerableFilterFreqImageSource ℝ N)
    (hsize : s.m_Size = t.m_Size) (horientation : s.m_Orientation = t.m_Orientation)
    (hbandwidth : s.m_AngularBandwidth = t.m_AngularBandwidth) (region : ImageRegion N)
    (buffer : (Fin N → ℤ) → Double) :
    DynamicThreadedGenerateData s region buffer = DynamicThreadedGenerateData t region buffer := by
  funext c
  rw [DynamicThreadedGenerateData_apply, DynamicThreadedGenerateData_apply,
    evaluate_congr s t hsize horientation hbandwidth]

/-- The 8 × 8 example with another spacing, origin and direction gives the same
buffer. -/
theorem generation_independent_of_metadata_witness :
    DynamicThreadedGenerateData
        { exampleSource with
          m_Spacing := ![2, 3], m_Origin := ![-1, 5], m_Direction := fun _ _ => 7 }
        exampleExtent (fun _ => nan) =
      exampleOutput :=
  generation_independent_of_metadata _ exampleSource rfl rfl rfl exampleExtent fun _ => nan

end SteerableFilterFreqImageSource

/-! ## The argument of the inverse cosine -/

namespace SteerableFilterFreqImageSource

variable {N : ℕ}

open Double

/-- The loop body in terms of its intermediate values. -/
theorem evaluate_eq_computed (s : SteerableFilterFreqImageSource ℝ N) (index : Fin N → ℤ) :
    evaluate s index =
      angularGaussian (computedDotProduct s index) (computedRadius s index) (angularSigma s) :=
  rfl

theorem computedRadius_eq (s : SteerableFilterFreqImageSource ℝ N) (index : Fin N → ℤ)
    (hsize : ∀ d, s.m_Size d ≠ 0) :
    computedRadius s index = fin (Real.sqrt (radiusSq s index)) := by
  unfold computedRadius
  simp only [setupLoop_eq, pixelLoop_eq s index hsize, sqrt_fin _ (radiusSq_nonneg s index)]

theorem computedDivisor_eq (s : SteerableFilterFreqImageSource ℝ N) (index : Fin N → ℤ)
    (hsize : ∀ d, s.m_Size d ≠ 0) :
    computedDivisor s index =
      fin (Real.sqrt (radiusSq s index) * Real.sqrt (orientationSq s)) := by
  unfold computedDivisor
  rw [computedRadius_eq s index hsize]
  simp only [setupLoop_eq, sqrt_fin _ (orientationSq_nonneg s), fin_mul_fin]

theorem computedDotProduct_eq (s : SteerableFilterFreqImageSource ℝ N) (index : Fin N → ℤ)
    (hsize : ∀ d, s.m_Size d ≠ 0) :
    computedDotProduct s index =
      fin (dotSum s index) /
        fin (Real.sqrt (radiusSq s index) * Real.sqrt (orientationSq s)) := by
  unfold computedDotProduct
  rw [computedDivisor_eq s index hsize]
  simp only [setupLoop_eq, pixelLoop_eq s index hsize]

/-- C15: in exact real arithmetic, when every size is at least one, the orientation is
not the zero vector and the computed `radius` is not zero, the divisor
`radius * orientationRadius` of line 130 is a non-zero number, the quotient `dotProduct`
is a number in `[-1, 1]`, and `acos` is applied inside its domain (its result is the
inverse cosine of the quotient, not not-a-number). -/
theorem dotProduct_in_acos_domain (s : SteerableFilterFreqImageSource ℝ N)
    (index : Fin N → ℤ) (hsize : ∀ d, 1 ≤ s.m_Size d)
    (horientation : ∃ d, s.m_Orientation d ≠ 0)
    (hradius : Double.eq (computedRadius s index) (fin 0) = false) :
    ∃ divisor quotient : ℝ,
      computedDivisor s index = fin divisor ∧ divisor ≠ 0 ∧
      computedDotProduct s index = fin quotient ∧ -1 ≤ quotient ∧ quotient ≤ 1 ∧
      acos (computedDotProduct s index) = fin (Real.arccos quotient) := by
  have hsize0 : ∀ d, s.m_Size d ≠ 0 := fun d => Nat.one_le_iff_ne_zero.mp (hsize d)
  have hr0 : Real.sqrt (radiusSq s index) ≠ 0 := by
    rw [computedRadius_eq s index hsize0] at hradius
    simpa using hradius
  have ho0 : Real.sqrt (orientationSq s) ≠ 0 := by
    rw [Real.sqrt_ne_zero (orientationSq_nonneg s)]
    obtain ⟨d, hd⟩ := horientation
    exact fun h => hd ((orientationSq_eq_zero_iff s).mp h d)
  have hdiv : Real.sqrt (radiusSq s index) * Real.sqrt (orientationSq s) ≠ 0 :=
    mul_ne_zero hr0 ho0
  obtain ⟨h1, h2⟩ := cosAngle_mem s index
  have hq : computedDotProduct s index = fin (cosAngle s index) := by
    rw [computedDotProduct_eq s index hsize0, fin_div_fin _ _ hdiv]
    rfl
  exact ⟨_, cosAngle s index, computedDivisor_eq s index hsize0, hdiv, hq, h1, h2, by
    rw [hq, acos_fin _ h1 h2]⟩

end SteerableFilterFreqImageSource

/-! ## The angular bandwidth as full width at half maximum -/

namespace SteerableFilterFreqImageSource

variable {N : ℕ}

open Double

theorem referenceAngle_eq (s : SteerableFilterFreqImageSource ℝ N) (index : Fin N → ℤ) :
    referenceAngle s.m_Size s.m_Orientation index = Real.arccos (cosAngle s index) := by
  rw [referenceAngle, referenceNorm_coord, referenceNorm_orientation]
  rfl

end SteerableFilterFreqImageSource

/-! ## The kernel along the orientation axis and along rays from the centre -/

namespace SteerableFilterFreqImageSource

variable {N : ℕ}

open Double

/-- For any `sigma` the Gaussian weakly decreases in the angle on `[0, ∞)`. -/
theorem gaussOfAngle_le (sigma a b : ℝ) (ha : 0 ≤ a) (hab : a ≤ b) :
    gaussOfAngle sigma b ≤ gaussOfAngle sigma a := by
  unfold gaussOfAngle
  have hden : 0 ≤ 2 * sigma * sigma := by
    have := mul_self_nonneg sigma
    linarith
  apply Real.exp_le_exp.mpr
  apply neg_le_neg
  apply div_le_div_of_nonneg_right _ hden
  nlinarith

theorem gaussOfAngle_pi (sigma : ℝ) :
    gaussOfAngle sigma Real.pi = Real.exp (-(Real.pi ^ 2) / (2 * sigma ^ 2)) := by
  simp only [gaussOfAngle, pow_two, neg_div, mul_assoc]

/-- When the coordinate vector is `t` times the orientation, the cosine of the angle is
`t / |t|`. -/
theorem cosAngle_of_coord_eq_smul (s : SteerableFilterFreqImageSource ℝ N)
    (index : Fin N → ℤ) (t : ℝ) (ho : orientationSq s ≠ 0)
    (hcoord : ∀ d, coord s index d = t * s.m_Orientation d) :
    radiusSq s index = t ^ 2 * orientationSq s ∧ cosAngle s index = t / |t| := by
  have hrad : radiusSq s index = t ^ 2 * orientationSq s := by
    simp only [radiusSq, orientationSq, hcoord, Finset.mul_sum]
    refine Finset.sum_congr rfl fun d _ => ?_
    ring
  have hdot : dotSum s index = t * orientationSq s := by
    simp only [dotSum, orientationSq, hcoord, Finset.mul_sum]
    refine Finset.sum_congr rfl fun d _ => ?_
    ring
  refine ⟨hrad, ?_⟩
  have hsq := Real.mul_self_sqrt (orientationSq_nonneg s)
  unfold cosAngle
  rw [hrad, hdot, Real.sqrt_mul (sq_nonneg t), Real.sqrt_sq_eq_abs, mul_assoc, hsq]
  exact mul_div_mul_right _ _ ho

/-- In exact real arithmetic, for a valid parameter set and an index whose coordinate
vector is `t` times the orientation: if `t > 0` the written value is exactly `1.0`; if `t < 0` it is
`exp(-(π^2) / (2 * sigma^2))` with `sigma = (angularBandwidth / 2) / 1.1774`, which is
strictly less than `1`; and every written value lies between these two, so the first is
the maximum and the second the minimum over all indices. -/
theorem value_along_orientation_axis (s : SteerableFilterFreqImageSource ℝ N) (hv : Valid s)
    (region : ImageRegion N) (buffer : (Fin N → ℤ) → Double) (index : Fin N → ℤ)
    (hregion : region.IsInside index) (t : ℝ)
    (hcoord : ∀ d, referenceCoord s.m_Size index d = t * s.m_Orientation d) :
    (0 < t → DynamicThreadedGenerateData s region buffer index = fin 1) ∧
    (t < 0 →
      DynamicThreadedGenerateData s region buffer index =
        fin (Real.exp (-(Real.pi ^ 2) / (2 * ((s.m_AngularBandwidth / 2) / 1.1774) ^ 2))) ∧
      Real.exp (-(Real.pi ^ 2) / (2 * ((s.m_AngularBandwidth / 2) / 1.1774) ^ 2)) < 1) ∧
    (∀ other, region.IsInside other →
      ∃ v : ℝ, DynamicThreadedGenerateData s region buffer other = fin v ∧
        Real.exp (-(Real.pi ^ 2) / (2 * ((s.m_AngularBandwidth / 2) / 1.1774) ^ 2)) ≤ v ∧
        v ≤ 1) := by
  have hsize := valid_size_ne_zero hv
  have ho := valid_orientationSq_ne_zero hv
  have hb : s.m_AngularBandwidth ≠ 0 := ne_of_gt hv.2.2
  have hsig : sigmaReal s ≠ 0 := by
    unfold sigmaReal
    exact div_ne_zero (div_ne_zero hb (by norm_num)) (by norm_num)
  have hpi : gaussOfAngle (sigmaReal s) Real.pi =
      Real.exp (-(Real.pi ^ 2) / (2 * ((s.m_AngularBandwidth / 2) / 1.1774) ^ 2)) :=
    gaussOfAngle_pi _
  obtain ⟨hrad, hcos⟩ := cosAngle_of_coord_eq_smul s index t ho hcoord
  have hr : t ≠ 0 → radiusSq s index ≠ 0 := fun ht => by
    rw [hrad]
    exact mul_ne_zero (pow_ne_zero 2 ht) ho
  rw [← hpi]
  refine ⟨fun ht => ?_, fun ht => ⟨?_, ?_⟩, fun other hother => ?_⟩
  · rw [DynamicThreadedGenerateData_of_isInside s region buffer index hregion,
      evaluate_eq_gaussOfAngle s index hsize (hr (ne_of_gt ht)) ho hb, hcos, abs_of_pos ht,
      div_self (ne_of_gt ht), Real.arccos_one, gaussOfAngle_zero]
  · rw [DynamicThreadedGenerateData_of_isInside s region buffer index hregion,
      evaluate_eq_gaussOfAngle s index hsize (hr (ne_of_lt ht)) ho hb, hcos, abs_of_neg ht,
      div_neg, div_self (ne_of_lt ht), Real.arccos_neg_one]
  · have h := gaussOfAngle_lt (sigmaReal s) 0 Real.pi hsig le_rfl Real.pi_pos
    rwa [gaussOfAngle_zero] at h
  · rw [DynamicThreadedGenerateData_of_isInside s region buffer other hother]
    by_cases hro : radiusSq s other = 0
    · refine ⟨1, evaluate_of_radiusSq_eq_zero s other hsize hro, ?_, le_rfl⟩
      exact gaussOfAngle_le_one _ _
    · exact ⟨_, evaluate_eq_gaussOfAngle s other hsize hro ho hb,
        gaussOfAngle_le _ _ _ (Real.arccos_nonneg _) (Real.arccos_le_pi _),
        gaussOfAngle_le_one _ _⟩

/-- Two indices, possibly of two grids, whose coordinate vectors differ by a factor
`t > 0` make the same angle with the orientation. -/
theorem cosAngle_of_coord_scaled (s s' : SteerableFilterFreqImageSource ℝ N)
    (horientation : s'.m_Orientation = s.m_Orientation) (i j : Fin N → ℤ) (t : ℝ)
    (ht : 0 < t) (hcoord : ∀ d, coord s' j d = t * coord s i d) :
    radiusSq s' j = t ^ 2 * radiusSq s i ∧ cosAngle s' j = cosAngle s i := by
  have hrad : radiusSq s' j = t ^ 2 * radiusSq s i := by
    simp only [radiusSq, hcoord, Finset.mul_sum]
    refine Finset.sum_congr rfl fun d _ => ?_
    ring
  have hdot : dotSum s' j = t * dotSum s i := by
    simp only [dotSum, hcoord, horientation, Finset.mul_sum]
    refine Finset.sum_congr rfl fun d _ => ?_
    ring
  have hosq : orientationSq s' = orientationSq s := by
    simp only [orientationSq, horientation]
  refine ⟨hrad, ?_⟩
  unfold cosAngle
  rw [hrad, hdot, hosq, Real.sqrt_mul (sq_nonneg t), Real.sqrt_sq ht.le, mul_assoc]
  exact mul_div_mul_left _ _ (ne_of_gt ht)

/-- In exact real arithmetic, for two valid parameter sets with the same orientation and
angular bandwidth (the sizes may differ) and two non-centre indices `i` and `j` with
`coord(j) = t * coord(i)` for some `t > 0`, `DynamicThreadedGenerateData` writes the same
value at `i` and at `j`. -/
theorem kernel_purely_angular (s s' : SteerableFilterFreqImageSource ℝ N) (hv : Valid s)
    (hv' : Valid s') (horientation : s'.m_Orientation = s.m_Orientation)
    (hbandwidth : s'.m_AngularBandwidth = s.m_AngularBandwidth)
    (region region' : ImageRegion N) (buffer buffer' : (Fin N → ℤ) → Double)
    (i j : Fin N → ℤ) (hi : region.IsInside i) (hj : region'.IsInside j)
    (hradius : referenceNorm (referenceCoord s.m_Size i) ≠ 0) (t : ℝ) (ht : 0 < t)
    (hcoord : ∀ d, referenceCoord s'.m_Size j d = t * referenceCoord s.m_Size i d) :
    DynamicThreadedGenerateData s' region' buffer' j =
      DynamicThreadedGenerateData s region buffer i := by
  have hr : radiusSq s i ≠ 0 := by
    rw [referenceNorm_coord] at hradius
    exact (Real.sqrt_ne_zero (radiusSq_nonneg s i)).mp hradius
  obtain ⟨hrad, hcos⟩ := cosAngle_of_coord_scaled s s' horientation i j t ht hcoord
  have hr' : radiusSq s' j ≠ 0 := by
    rw [hrad]
    exact mul_ne_zero (pow_ne_zero 2 (ne_of_gt ht)) hr
  have hsig : sigmaReal s' = sigmaReal s := by
    simp only [sigmaReal, hbandwidth]
  rw [DynamicThreadedGenerateData_of_isInside s' region' buffer' j hj,
    DynamicThreadedGenerateData_of_isInside s region buffer i hi,
    evaluate_eq_gaussOfAngle s i (valid_size_ne_zero hv) hr (valid_orientationSq_ne_zero hv)
      (ne_of_gt hv.2.2),
    evaluate_eq_gaussOfAngle s' j (valid_size_ne_zero hv') hr'
      (valid_orientationSq_ne_zero hv') (ne_of_gt hv'.2.2), hcos, hsig]

end SteerableFilterFreqImageSource

/-! ## Mirror symmetry, and monotonicity in the bandwidth -/

namespace SteerableFilterFreqImageSource

variable {N : ℕ}

open Double

/-- The Gaussian of a fixed angle weakly increases with a positive `sigma`, strictly when
the angle is not zero. -/
theorem gaussOfAngle_mono_sigma (sigma₁ sigma₂ a : ℝ) (h₁ : 0 < sigma₁)
    (h₁₂ : sigma₁ ≤ sigma₂) :
    gaussOfAngle sigma₁ a ≤ gaussOfAngle sigma₂ a ∧
      (sigma₁ < sigma₂ → a ≠ 0 → gaussOfAngle sigma₁ a < gaussOfAngle sigma₂ a) := by
  unfold gaussOfAngle
  have hd₁ : 0 < 2 * sigma₁ * sigma₁ := by nlinarith
  have ha : 0 ≤ a * a := mul_self_nonneg a
  constructor
  · apply Real.exp_le_exp.mpr
    apply neg_le_neg
    apply div_le_div_of_nonneg_left ha hd₁
    nlinarith
  · intro hlt hne
    have ha' : 0 < a * a := mul_self_pos.mpr hne
    apply Real.exp_lt_exp.mpr
    apply neg_lt_neg
    apply div_lt_div_of_pos_left ha' hd₁
    nlinarith

/-- In exact real arithmetic, for every size, every non-zero orientation, every index of
the extent `[0, size)` and two bandwidths `0 < b1 ≤ b2`, the value written at the index with
`angularBandwidth = b1` is a number not greater than the one written with
`angularBandwidth = b2`; it is strictly smaller when `b1 < b2` and the index is neither
the centre nor at angle `0` to the orientation. -/
theorem value_monotone_in_bandwidth (s : SteerableFilterFreqImageSource ℝ N)
    (horientation : ∃ d, s.m_Orientation d ≠ 0) (b₁ b₂ : ℝ)
    (hb₁ : 0 < b₁) (hb : b₁ ≤ b₂) (region : ImageRegion N) (buffer : (Fin N → ℤ) → Double)
    (index : Fin N → ℤ) (hregion : region.IsInside index)
    (hextent : ∀ d, 0 ≤ index d ∧ index d < (s.m_Size d : ℤ)) :
    ∃ v₁ v₂ : ℝ,
      DynamicThreadedGenerateData { s with m_AngularBandwidth := b₁ } region buffer index =
        fin v₁ ∧
      DynamicThreadedGenerateData { s with m_AngularBandwidth := b₂ } region buffer index =
        fin v₂ ∧
      v₁ ≤ v₂ ∧
      (b₁ < b₂ → referenceNorm (referenceCoord s.m_Size index) ≠ 0 →
        0 < referenceAngle s.m_Size s.m_Orientation index → v₁ < v₂) := by
  have hsize : ∀ d, 1 ≤ s.m_Size d := by
    intro d
    have := hextent d
    omega
  have hb₂ : 0 < b₂ := lt_of_lt_of_le hb₁ hb
  have hv₁ : Valid { s with m_AngularBandwidth := b₁ } := ⟨hsize, horientation, hb₁⟩
  have hv₂ : Valid { s with m_AngularBandwidth := b₂ } := ⟨hsize, horientation, hb₂⟩
  have hsize0 := valid_size_ne_zero hv₁
  rw [DynamicThreadedGenerateData_of_isInside _ region buffer index hregion,
    DynamicThreadedGenerateData_of_isInside _ region buffer index hregion]
  by_cases hr : radiusSq s index = 0
  · refine ⟨1, 1,
      @evaluate_of_radiusSq_eq_zero N { s with m_AngularBandwidth := b₁ } index hsize0 hr,
      @evaluate_of_radiusSq_eq_zero N { s with m_AngularBandwidth := b₂ } index hsize0 hr,
      le_rfl, fun _ hnorm _ => ?_⟩
    rw [referenceNorm_coord, hr, Real.sqrt_zero] at hnorm
    exact absurd rfl hnorm
  · have hs₁ : 0 < b₁ / 2 / 1.1774 := by positivity
    have hs₁₂ : b₁ / 2 / 1.1774 ≤ b₂ / 2 / 1.1774 := by
      apply div_le_div_of_nonneg_right _ (by norm_num)
      linarith
    obtain ⟨hle, hlt⟩ := gaussOfAngle_mono_sigma _ _ (Real.arccos (cosAngle s index)) hs₁ hs₁₂
    refine ⟨_, _,
      @evaluate_eq_gaussOfAngle N { s with m_AngularBandwidth := b₁ } index hsize0 hr
        (valid_orientationSq_ne_zero hv₁) (ne_of_gt hb₁),
      @evaluate_eq_gaussOfAngle N { s with m_AngularBandwidth := b₂ } index hsize0 hr
        (valid_orientationSq_ne_zero hv₂) (ne_of_gt hb₂), hle, fun hblt _ hangle => ?_⟩
    apply hlt
    · apply div_lt_div_of_pos_right _ (by norm_num)
      linarith
    · rw [referenceAngle_eq] at hangle
      exact ne_of_gt hangle

end SteerableFilterFreqImageSource

/-! ## The later theorems applied to the 8 × 8 example -/

namespace SteerableFilterFreqImageSource

open Double

theorem exampleSource_referenceCoord (index : Fin 2 → ℤ) (d : Fin 2) :
    referenceCoord exampleSource.m_Size index d = ((index d : ℝ) - 4) / 8 :=
  exampleSource_coord index d

theorem exampleSource_radiusSq_four_six : radiusSq exampleSource ![4, 6] = 1 / 16 := by
  rw [exampleSource_radiusSq]
  simp
  norm_num

theorem exampleSource_radiusSq_six_four : radiusSq exampleSource ![6, 4] = 1 / 16 := by
  rw [exampleSource_radiusSq]
  simp
  norm_num

theorem exampleSource_cosAngle_four_six : cosAngle exampleSource ![4, 6] = 0 := by
  unfold cosAngle
  rw [exampleSource_dotSum]
  simp

theorem exampleSource_referenceNorm_four_six :
    referenceNorm (referenceCoord exampleSource.m_Size ![4, 6]) ≠ 0 := by
  rw [referenceNorm_coord, exampleSource_radiusSq_four_six, sqrt_one_sixteenth]
  norm_num

theorem exampleSource_referenceNorm_six_four :
    referenceNorm (referenceCoord exampleSource.m_Size ![6, 4]) ≠ 0 := by
  rw [referenceNorm_coord, exampleSource_radiusSq_six_four, sqrt_one_sixteenth]
  norm_num

theorem exampleSource_referenceAngle_four_six :
    referenceAngle exampleSource.m_Size exampleSource.m_Orientation ![4, 6] = Real.pi / 2 := by
  rw [referenceAngle_eq, exampleSource_cosAngle_four_six, Real.arccos_zero]

/-- In the 8 × 8 example the computed radius at `[6, 4]` is `1/4`, not zero. -/
theorem dotProduct_in_acos_domain_witness :
    Double.eq (computedRadius exampleSource ![6, 4]) (fin 0) = false ∧
      ∃ divisor quotient : ℝ,
        computedDivisor exampleSource ![6, 4] = fin divisor ∧ divisor ≠ 0 ∧
        computedDotProduct exampleSource ![6, 4] = fin quotient ∧ -1 ≤ quotient ∧
        quotient ≤ 1 ∧
        acos (computedDotProduct exampleSource ![6, 4]) = fin (Real.arccos quotient) :=
  have hradius : Double.eq (computedRadius exampleSource ![6, 4]) (fin 0) = false := by
    rw [computedRadius_eq _ _ exampleSource_sizes, exampleSource_radiusSq_six_four,
      sqrt_one_sixteenth]
    simp
  ⟨hradius, dotProduct_in_acos_domain exampleSource ![6, 4] exampleSource_valid.1
    exampleSource_valid.2.1 hradius⟩

/-- In the 8 × 8 example `[6, 4]` has the coordinate vector `1/4` times the orientation
and `[2, 4]` has `-1/4` times the orientation. -/
theorem value_along_orientation_axis_witness :
    DynamicThreadedGenerateData exampleSource exampleExtent (fun _ => nan) ![6, 4] = fin 1 ∧
      DynamicThreadedGenerateData exampleSource exampleExtent (fun _ => nan) ![2, 4] =
        fin (Real.exp (-(Real.pi ^ 2) /
          (2 * ((exampleSource.m_AngularBandwidth / 2) / 1.1774) ^ 2))) :=
  ⟨(value_along_orientation_axis exampleSource exampleSource_valid exampleExtent
      (fun _ => nan) ![6, 4] (exampleExtent_isInside 6 4 (by norm_num) (by norm_num)) (1 / 4)
      (by
        intro d
        rw [exampleSource_referenceCoord]
        fin_cases d <;> simp [exampleSource]
        norm_num)).1 (by norm_num),
    ((value_along_orientation_axis exampleSource exampleSource_valid exampleExtent
      (fun _ => nan) ![2, 4] (exampleExtent_isInside 2 4 (by norm_num) (by norm_num))
      (-(1 / 4))
      (by
        intro d
        rw [exampleSource_referenceCoord]
        fin_cases d <;> simp [exampleSource]
        norm_num)).2.1 (by norm_num)).1⟩

/-- The index `[14, 8]` of a 16 × 16 grid has `3/2` times the coordinate vector of the
index `[6, 4]` of the 8 × 8 example. -/
theorem kernel_purely_angular_witness :
    DynamicThreadedGenerateData { exampleSource with m_Size := ![16, 16] }
        { index := ![0, 0], size := ![16, 16] } (fun _ => nan) ![14, 8] =
      DynamicThreadedGenerateData exampleSource exampleExtent (fun _ => nan) ![6, 4] :=
  kernel_purely_angular exampleSource { exampleSource with m_Size := ![16, 16] }
    exampleSource_valid
    ⟨by intro d; fin_cases d <;> simp, exampleSource_valid.2.1, exampleSource_valid.2.2⟩
    rfl rfl exampleExtent { index := ![0, 0], size := ![16, 16] } (fun _ => nan)
    (fun _ => nan) ![6, 4] ![14, 8] (exampleExtent_isInside 6 4 (by norm_num) (by norm_num))
    (by intro d; fin_cases d <;> simp)
    exampleSource_referenceNorm_six_four (3 / 2) (by norm_num)
    (by
      intro d
      rw [exampleSource_referenceCoord]
      fin_cases d <;> simp [referenceCoord] <;> norm_num)

/-- The 8 × 8 example with the bandwidths `1` and `2`, at the off-axis index `[4, 6]`. -/
theorem value_monotone_in_bandwidth_witness :
    ∃ v₁ v₂ : ℝ,
      DynamicThreadedGenerateData { exampleSource with m_AngularBandwidth := 1 } exampleExtent
        (fun _ => nan) ![4, 6] = fin v₁ ∧
      DynamicThreadedGenerateData { exampleSource with m_AngularBandwidth := 2 } exampleExtent
        (fun _ => nan) ![4, 6] = fin v₂ ∧
      v₁ < v₂ := by
  obtain ⟨v₁, v₂, h₁, h₂, -, hlt⟩ :=
    value_monotone_in_bandwidth exampleSource exampleSource_valid.2.1
      1 2 (by norm_num) (by norm_num) exampleExtent (fun _ => nan) ![4, 6]
      (exampleExtent_isInside 4 6 (by norm_num) (by norm_num))
      (by intro d; fin_cases d <;> simp [exampleSource])
  exact ⟨v₁, v₂, h₁, h₂, hlt (by norm_num) exampleSource_referenceNorm_four_six (by
    rw [exampleSource_referenceAngle_four_six]
    positivity)⟩

end SteerableFilterFreqImageSource

/-! ## The kernel in binary64 arithmetic: the rounding lemmas and the failing input -/

namespace Double

theorem roundHalfEven_eq (y : ℝ) (m : ℤ) (h : |y - m| < 1 / 2) : roundHalfEven y = m := by
  rw [abs_lt] at h
  unfold roundHalfEven
  by_cases hym : (m : ℝ) ≤ y
  · have hfl : ⌊y⌋ = m := by
      rw [Int.floor_eq_iff]
      constructor <;> linarith [h.1, h.2]
    rw [hfl, if_pos (by linarith [h.2])]
  · have hfl : ⌊y⌋ = m - 1 := by
      rw [Int.floor_eq_iff]
      push_cast
      constructor <;> linarith [h.1, h.2]
    rw [hfl]
    push_cast
    rw [if_neg (by linarith [h.1]), if_pos (by linarith [h.1])]
    ring

theorem ulp_eq (x : ℝ) (e : ℤ) (h1 : (2 : ℝ) ^ e ≤ |x|) (h2 : |x| < (2 : ℝ) ^ (e + 1))
    (he : -1022 ≤ e) : ulp x = (2 : ℝ) ^ (e - 52) := by
  have hpos : 0 < |x| := lt_of_lt_of_le (zpow_pos (by norm_num) e) h1
  have hlog : Int.log 2 |x| = e := by
    apply le_antisymm
    · have := (Int.lt_zpow_iff_log_lt (by norm_num : 1 < 2) hpos).mp (by exact_mod_cast h2)
      omega
    · exact (Int.zpow_le_iff_le_log (by norm_num : 1 < 2) hpos).mp (by exact_mod_cast h1)
  unfold ulp
  rw [hlog, max_eq_left he]

/-- The rounding of `x` when its binade `[2 ^ e, 2 ^ (e + 1))` and the integer `m` nearest
to `x / 2 ^ (e - 52)` are known: the result is `y = m * 2 ^ (e - 52)`. -/
theorem round64_eq (x y : ℝ) (e m : ℤ) (hy : (m : ℝ) * (2 : ℝ) ^ (e - 52) = y)
    (h1 : (2 : ℝ) ^ e ≤ |x|) (h2 : |x| < (2 : ℝ) ^ (e + 1)) (he : -1022 ≤ e)
    (he2 : e ≤ 1023) (hm : |x / (2 : ℝ) ^ (e - 52) - m| < 1 / 2)
    (hm2 : |(m : ℝ)| < (2 : ℝ) ^ (53 : ℤ)) : round64 x = fin y := by
  have hfin : |(m : ℝ) * (2 : ℝ) ^ (e - 52)| < (2 : ℝ) ^ (1024 : ℤ) := by
    have hq : (0 : ℝ) < (2 : ℝ) ^ (e - 52) := zpow_pos (by norm_num) _
    rw [abs_mul, abs_of_pos hq]
    calc |(m : ℝ)| * (2 : ℝ) ^ (e - 52) < (2 : ℝ) ^ (53 : ℤ) * (2 : ℝ) ^ (e - 52) :=
          mul_lt_mul_of_pos_right hm2 hq
      _ = (2 : ℝ) ^ (e + 1) := by
          rw [← zpow_add₀ (by norm_num : (2 : ℝ) ≠ 0)]
          congr 1
          ring
      _ ≤ (2 : ℝ) ^ (1024 : ℤ) := zpow_le_zpow_right₀ (by norm_num) (by omega)
  unfold round64
  rw [ulp_eq x e h1 h2 he, roundHalfEven_eq _ m hm, if_neg (not_le.mpr hfin), hy]

/-- The rounding of a positive `x`, without absolute values. -/
theorem round64_eq_of_pos (x y : ℝ) (e m : ℤ) (hy : (m : ℝ) * (2 : ℝ) ^ (e - 52) = y)
    (h1 : (2 : ℝ) ^ e ≤ x) (h2 : x < (2 : ℝ) ^ (e + 1)) (he : -1022 ≤ e) (he2 : e ≤ 1023)
    (hlo : ((m : ℝ) - 1 / 2) * (2 : ℝ) ^ (e - 52) < x)
    (hhi : x < ((m : ℝ) + 1 / 2) * (2 : ℝ) ^ (e - 52))
    (hm0 : (0 : ℝ) ≤ m) (hm2 : (m : ℝ) < (2 : ℝ) ^ (53 : ℤ)) : round64 x = fin y := by
  have hx : 0 < x := lt_of_lt_of_le (zpow_pos (by norm_num) e) h1
  have hq : (0 : ℝ) < (2 : ℝ) ^ (e - 52) := zpow_pos (by norm_num) _
  refine round64_eq x y e m hy (by rwa [abs_of_pos hx]) (by rwa [abs_of_pos hx]) he he2 ?_
    (by rwa [abs_of_nonneg hm0])
  rw [abs_lt]
  constructor
  · have := (lt_div_iff₀ hq).mpr hlo
    linarith
  · have := (div_lt_iff₀ hq).mpr hhi
    linarith

/-- Rounding is odd: the rounding of `-x` is minus the rounding of `x`, here for a
positive `x` whose rounding is known. -/
theorem round64_eq_of_neg (x y : ℝ) (e m : ℤ) (hy : (m : ℝ) * (2 : ℝ) ^ (e - 52) = y)
    (h1 : (2 : ℝ) ^ e ≤ x) (h2 : x < (2 : ℝ) ^ (e + 1)) (he : -1022 ≤ e) (he2 : e ≤ 1023)
    (hlo : ((m : ℝ) - 1 / 2) * (2 : ℝ) ^ (e - 52) < x)
    (hhi : x < ((m : ℝ) + 1 / 2) * (2 : ℝ) ^ (e - 52))
    (hm0 : (0 : ℝ) ≤ m) (hm2 : (m : ℝ) < (2 : ℝ) ^ (53 : ℤ)) : round64 (-x) = fin (-y) := by
  have hx : 0 < x := lt_of_lt_of_le (zpow_pos (by norm_num) e) h1
  have hq : (0 : ℝ) < (2 : ℝ) ^ (e - 52) := zpow_pos (by norm_num) _
  refine round64_eq (-x) (-y) e (-m) (by push_cast; rw [← hy]; ring)
    (by rwa [abs_neg, abs_of_pos hx]) (by rwa [abs_neg, abs_of_pos hx]) he he2 ?_
    (by push_cast; rwa [abs_neg, abs_of_nonneg hm0])
  rw [abs_lt]
  push_cast
  constructor
  · have := (div_lt_iff₀ hq).mpr hhi
    rw [neg_div]
    linarith
  · have := (lt_div_iff₀ hq).mpr hlo
    rw [neg_div]
    linarith

theorem round64_zero : round64 0 = fin 0 := by
  have hu : ulp 0 = (2 : ℝ) ^ (-52 : ℤ) := by
    unfold ulp
    simp
  unfold round64
  rw [hu, zero_div, roundHalfEven_eq 0 0 (by norm_num)]
  norm_num

end Double

namespace SteerableFilterFreqImageSource

variable {N : ℕ}

open Double

/-- In exact arithmetic the parametric kernel is the kernel. -/
theorem evaluateWith_exact (s : SteerableFilterFreqImageSource ℝ N) (index : Fin N → ℤ) :
    evaluateWith Arithmetic.exact s index = evaluate s index := rfl

theorem DynamicThreadedGenerateDataWith_exact (s : SteerableFilterFreqImageSource ℝ N)
    (region : ImageRegion N) (buffer : (Fin N → ℤ) → Double) :
    DynamicThreadedGenerateDataWith Arithmetic.exact s region buffer =
      DynamicThreadedGenerateData s region buffer := rfl

theorem round64_one : round64 (1) = fin (1) :=
  round64_eq_of_pos (1) (1) (0) 4503599627370496 (by norm_num) (by norm_num) (by norm_num)
    (by norm_num) (by norm_num) (by norm_num) (by norm_num) (by norm_num) (by norm_num)

theorem round64_two : round64 (2) = fin (2) :=
  round64_eq_of_pos (2) (2) (1) 4503599627370496 (by norm_num) (by norm_num) (by norm_num)
    (by norm_num) (by norm_num) (by norm_num) (by norm_num) (by norm_num) (by norm_num)

theorem round64_four : round64 (4) = fin (4) :=
  round64_eq_of_pos (4) (4) (2) 4503599627370496 (by norm_num) (by norm_num) (by norm_num)
    (by norm_num) (by norm_num) (by norm_num) (by norm_num) (by norm_num) (by norm_num)

theorem round64_eight : round64 (8) = fin (8) :=
  round64_eq_of_pos (8) (8) (3) 4503599627370496 (by norm_num) (by norm_num) (by norm_num)
    (by norm_num) (by norm_num) (by norm_num) (by norm_num) (by norm_num) (by norm_num)

theorem round64_thirty_six : round64 (36) = fin (36) :=
  round64_eq_of_pos (36) (36) (5) 5066549580791808 (by norm_num) (by norm_num) (by norm_num)
    (by norm_num) (by norm_num) (by norm_num) (by norm_num) (by norm_num) (by norm_num)

theorem round64_seventy_two : round64 (72) = fin (72) :=
  round64_eq_of_pos (72) (72) (6) 5066549580791808 (by norm_num) (by norm_num) (by norm_num)
    (by norm_num) (by norm_num) (by norm_num) (by norm_num) (by norm_num) (by norm_num)

theorem round64_neg_three : round64 (-(3)) = fin (-(3)) :=
  round64_eq_of_neg (3) (3) (1) 6755399441055744 (by norm_num) (by norm_num) (by norm_num)
    (by norm_num) (by norm_num) (by norm_num) (by norm_num) (by norm_num) (by norm_num)

theorem round64_neg_three_eighths : round64 (-(3 / 8)) = fin (-(3 / 8)) :=
  round64_eq_of_neg (3 / 8) (3 / 8) (-2) 6755399441055744 (by norm_num) (by norm_num) (by norm_num)
    (by norm_num) (by norm_num) (by norm_num) (by norm_num) (by norm_num) (by norm_num)

theorem round64_nine_quarters : round64 (9 / 4) = fin (9 / 4) :=
  round64_eq_of_pos (9 / 4) (9 / 4) (1) 5066549580791808 (by norm_num) (by norm_num) (by norm_num)
    (by norm_num) (by norm_num) (by norm_num) (by norm_num) (by norm_num) (by norm_num)

theorem round64_nine_halves : round64 (9 / 2) = fin (9 / 2) :=
  round64_eq_of_pos (9 / 2) (9 / 2) (2) 5066549580791808 (by norm_num) (by norm_num) (by norm_num)
    (by norm_num) (by norm_num) (by norm_num) (by norm_num) (by norm_num) (by norm_num)

theorem round64_nine_sixty_fourths : round64 (9 / 64) = fin (9 / 64) :=
  round64_eq_of_pos (9 / 64) (9 / 64) (-3) 5066549580791808 (by norm_num) (by norm_num) (by norm_num)
    (by norm_num) (by norm_num) (by norm_num) (by norm_num) (by norm_num) (by norm_num)

theorem round64_nine_thirty_seconds : round64 (9 / 32) = fin (9 / 32) :=
  round64_eq_of_pos (9 / 32) (9 / 32) (-2) 5066549580791808 (by norm_num) (by norm_num) (by norm_num)
    (by norm_num) (by norm_num) (by norm_num) (by norm_num) (by norm_num) (by norm_num)

/-- The binary64 square root of `72` is `4776788754394329 * 2 ^ (-49)`, printed
`8.48528137423857`. -/
theorem round64_sqrt_seventy_two :
    round64 (Real.sqrt 72) = fin (4776788754394329 / 562949953421312) :=
  round64_eq_of_pos _ _ 3 4776788754394329 (by norm_num)
    (by
      apply Real.le_sqrt_of_sq_le
      norm_num)
    (by
      rw [Real.sqrt_lt' (by norm_num)]
      norm_num)
    (by norm_num) (by norm_num)
    (by
      apply Real.lt_sqrt_of_sq_lt
      norm_num)
    (by
      rw [Real.sqrt_lt' (by norm_num)]
      norm_num)
    (by norm_num) (by norm_num)

/-- The binary64 square root of `9/32 = 0.28125` is `4776788754394329 * 2 ^ (-53)`,
printed `0.5303300858899106`. -/
theorem round64_sqrt_nine_thirty_seconds :
    round64 (Real.sqrt (9 / 32)) = fin (4776788754394329 / 9007199254740992) :=
  round64_eq_of_pos _ _ (-1) 4776788754394329 (by norm_num)
    (by
      apply Real.le_sqrt_of_sq_le
      norm_num)
    (by
      rw [Real.sqrt_lt' (by norm_num)]
      norm_num)
    (by norm_num) (by norm_num)
    (by
      apply Real.lt_sqrt_of_sq_lt
      norm_num)
    (by
      rw [Real.sqrt_lt' (by norm_num)]
      norm_num)
    (by norm_num) (by norm_num)

/-- The binary64 product of the two square roots is `4.5 - 2 ^ (-50)`, printed
`4.499999999999999`. -/
theorem round64_divisor :
    round64 (4776788754394329 / 9007199254740992 * (4776788754394329 / 562949953421312)) =
      fin (5066549580791807 / 1125899906842624) :=
  round64_eq_of_pos _ _ 2 5066549580791807 (by norm_num) (by norm_num) (by norm_num)
    (by norm_num) (by norm_num) (by norm_num) (by norm_num) (by norm_num) (by norm_num)

/-- The binary64 quotient of `4.5` by `4.5 - 2 ^ (-50)` is `1 + 2 ^ (-52)`, printed
`1.0000000000000002`. -/
theorem round64_quotient :
    round64 (9 / 2 / (5066549580791807 / 1125899906842624)) =
      fin (4503599627370497 / 4503599627370496) :=
  round64_eq_of_pos _ _ 0 4503599627370497 (by norm_num) (by norm_num) (by norm_num)
    (by norm_num) (by norm_num) (by norm_num) (by norm_num) (by norm_num) (by norm_num)

theorem binary64_ofReal (x : ℝ) : Arithmetic.binary64.ofReal x = round64 x := rfl

theorem binary64_add_fin (a b : ℝ) :
    Arithmetic.binary64.add (fin a) (fin b) = round64 (a + b) := rfl

theorem binary64_sub_fin (a b : ℝ) :
    Arithmetic.binary64.sub (fin a) (fin b) = round64 (a - b) := by
  show roundResult (fin a - fin b) = round64 (a - b)
  rw [fin_sub_fin]
  rfl

theorem binary64_mul_fin (a b : ℝ) :
    Arithmetic.binary64.mul (fin a) (fin b) = round64 (a * b) := rfl

theorem binary64_div_fin (a b : ℝ) (hb : b ≠ 0) :
    Arithmetic.binary64.div (fin a) (fin b) = round64 (a / b) := by
  show roundResult (fin a / fin b) = round64 (a / b)
  rw [fin_div_fin a b hb]
  rfl

theorem binary64_sqrt_fin (a : ℝ) (ha : 0 ≤ a) :
    Arithmetic.binary64.sqrt (fin a) = round64 (Real.sqrt a) := by
  show roundResult (Double.sqrt (fin a)) = round64 (Real.sqrt a)
  rw [sqrt_fin a ha]
  rfl

theorem binary64_six_times_six :
    Arithmetic.binary64.mul (fin (-6)) (fin (-6)) = fin 36 := by
  rw [binary64_mul_fin, show ((-6 : ℝ) * -6) = 36 by norm_num, round64_thirty_six]

theorem binary64_centre :
    Arithmetic.binary64.div (Arithmetic.binary64.ofReal ((8 : ℕ) : ℝ))
      (Arithmetic.binary64.ofReal 2) = fin 4 := by
  rw [binary64_ofReal, binary64_ofReal, Nat.cast_ofNat, round64_eight, round64_two,
    binary64_div_fin _ _ (by norm_num), show ((8 : ℝ) / 2) = 4 by norm_num, round64_four]

/-- Lines 109-113 in binary64 for the orientation `[-6, -6]` on the 8 × 8 grid: the sum
of squares is `72` and both centre coordinates are `4`. -/
theorem setupLoopWith_binary64_diagonal (b : ℝ) :
    setupLoopWith Arithmetic.binary64 (diagonalSource b) =
      { orientationRadius := fin 72, centerPoint := fun _ => fin 4 } := by
  have hl : List.finRange 2 = [0, 1] := rfl
  unfold setupLoopWith
  rw [hl]
  simp only [List.foldl_cons, List.foldl_nil, setupStepWith, diagonalSource, exampleSource,
    Matrix.cons_val_zero, Matrix.cons_val_one, Matrix.head_cons]
  rw [binary64_six_times_six, binary64_centre, binary64_ofReal, round64_zero,
    binary64_add_fin, show ((0 : ℝ) + 36) = 36 by norm_num, round64_thirty_six,
    binary64_add_fin, show ((36 : ℝ) + 36) = 72 by norm_num, round64_seventy_two]
  congr 1
  funext j
  fin_cases j <;> simp [Function.update]

theorem binary64_dist :
    Arithmetic.binary64.div
        (Arithmetic.binary64.sub (Arithmetic.binary64.ofReal ((1 : ℤ) : ℝ)) (fin 4))
        (Arithmetic.binary64.ofReal ((8 : ℕ) : ℝ)) = fin (-(3 / 8)) := by
  rw [binary64_ofReal, binary64_ofReal, Nat.cast_ofNat, Int.cast_one, round64_one,
    round64_eight, binary64_sub_fin, show ((1 : ℝ) - 4) = -3 by norm_num, round64_neg_three,
    binary64_div_fin _ _ (by norm_num), show ((-3 : ℝ) / 8) = -(3 / 8) by norm_num,
    round64_neg_three_eighths]

theorem binary64_six_times_dist :
    Arithmetic.binary64.mul (fin (-6)) (fin (-(3 / 8))) = fin (9 / 4) := by
  rw [binary64_mul_fin, show ((-6 : ℝ) * -(3 / 8)) = 9 / 4 by norm_num, round64_nine_quarters]

theorem binary64_dist_squared :
    Arithmetic.binary64.mul (fin (-(3 / 8))) (fin (-(3 / 8))) = fin (9 / 64) := by
  rw [binary64_mul_fin, show ((-(3 / 8) : ℝ) * -(3 / 8)) = 9 / 64 by norm_num,
    round64_nine_sixty_fourths]

/-- Lines 120-128 in binary64 at the index `[1, 1]`: both coordinates are `-0.375`, the
dot product is `4.5` and the sum of squares is `0.28125`. -/
theorem pixelLoopWith_binary64_diagonal (b : ℝ) :
    pixelLoopWith Arithmetic.binary64 (diagonalSource b) (fun _ => fin 4) ![1, 1] =
      { dist := fun _ => fin (-(3 / 8)), dotProduct := fin (9 / 2), radius := fin (9 / 32) } := by
  have hl : List.finRange 2 = [0, 1] := rfl
  unfold pixelLoopWith
  rw [hl]
  simp only [List.foldl_cons, List.foldl_nil, pixelStepWith, diagonalSource, exampleSource,
    Matrix.cons_val_zero, Matrix.cons_val_one, Matrix.head_cons, Function.update_same]
  rw [binary64_dist, binary64_six_times_dist, binary64_dist_squared, binary64_ofReal,
    round64_zero, binary64_add_fin, show ((0 : ℝ) + 9 / 4) = 9 / 4 by norm_num,
    round64_nine_quarters, binary64_add_fin, show ((9 / 4 : ℝ) + 9 / 4) = 9 / 2 by norm_num,
    round64_nine_halves, binary64_add_fin, show ((0 : ℝ) + 9 / 64) = 9 / 64 by norm_num,
    round64_nine_sixty_fourths, binary64_add_fin,
    show ((9 / 64 : ℝ) + 9 / 64) = 9 / 32 by norm_num, round64_nine_thirty_seconds]
  congr 1
  funext j
  fin_cases j <;> simp [Function.update]

/-- Lines 129-130 in binary64 at the index `[1, 1]`: the radius is
`0.5303300858899106`, the divisor `4.499999999999999` and the quotient
`1.0000000000000002`; lines 131-138 are entered with these. -/
theorem pixelValueWith_binary64_diagonal (b : ℝ) (angularSigma : Double) :
    pixelValueWith Arithmetic.binary64 (diagonalSource b) angularSigma
        (fin (4776788754394329 / 562949953421312)) (fun _ => fin 4) ![1, 1] =
      angularGaussianWith Arithmetic.binary64 (fin (4503599627370497 / 4503599627370496))
        (fin (4776788754394329 / 9007199254740992)) angularSigma := by
  unfold pixelValueWith
  simp only [pixelLoopWith_binary64_diagonal]
  rw [binary64_sqrt_fin _ (by norm_num), round64_sqrt_nine_thirty_seconds, binary64_mul_fin,
    round64_divisor, binary64_div_fin _ _ (by norm_num), round64_quotient]

/-- Lines 131-138 in binary64 for a quotient above `1` and a non-zero radius: `acos`
returns not-a-number and so does everything computed from it. -/
theorem angularGaussianWith_binary64_of_one_lt (q r : ℝ) (hq : 1 < q) (hr : r ≠ 0)
    (angularSigma : Double) :
    angularGaussianWith Arithmetic.binary64 (fin q) (fin r) angularSigma = nan := by
  have hacos : Arithmetic.binary64.acos (fin q) = nan := by
    show roundResult (Double.acos (fin q)) = nan
    rw [acos_fin_of_one_lt q hq]
    rfl
  have hmul : Arithmetic.binary64.mul nan nan = nan := rfl
  have hdiv : ∀ x, Arithmetic.binary64.div nan x = nan := by
    intro x
    show roundResult (nan / x) = nan
    rw [nan_div]
    rfl
  have hneg : Arithmetic.binary64.neg nan = nan := rfl
  have hexp : Arithmetic.binary64.exp nan = nan := rfl
  unfold angularGaussianWith
  simp only [hacos, hmul, hdiv, hneg, hexp, binary64_ofReal, round64_zero, eq_fin_fin,
    decide_eq_true_eq, hr, if_false]

/-- In binary64 the loop body writes not-a-number at the index `[1, 1]` of the 8 × 8
grid with orientation `[-6, -6]`, whatever the angular bandwidth. -/
theorem evaluateWith_binary64_diagonal (b : ℝ) :
    evaluateWith Arithmetic.binary64 (diagonalSource b) ![1, 1] = nan := by
  unfold evaluateWith
  simp only [setupLoopWith_binary64_diagonal]
  rw [binary64_sqrt_fin _ (by norm_num), round64_sqrt_seventy_two,
    pixelValueWith_binary64_diagonal]
  exact angularGaussianWith_binary64_of_one_lt _ _ (by norm_num) (by norm_num) _

theorem DynamicThreadedGenerateDataWith_of_isInside (A : Arithmetic)
    (s : SteerableFilterFreqImageSource ℝ N) (region : ImageRegion N)
    (buffer : (Fin N → ℤ) → Double) (c : Fin N → ℤ) (hc : region.IsInside c) :
    DynamicThreadedGenerateDataWith A s region buffer c = evaluateWith A s c := by
  unfold DynamicThreadedGenerateDataWith
  have h := foldl_update_apply
    (fun index => pixelValueWith A s (angularSigmaWith A s)
      (A.sqrt (setupLoopWith A s).orientationRadius) (setupLoopWith A s).centerPoint index)
    region.indices buffer c
  rw [if_pos ((region.mem_indices c).mpr hc)] at h
  exact h

/-! ### The roundings of the angular standard deviation for the bandwidth `1` -/

/-- The literal `1.1774` as a binary64 number. -/
theorem round64_literal : round64 (1.1774) = fin (2651269100633011 / 2251799813685248) :=
  round64_eq_of_pos _ _ (0) 5302538201266022 (by norm_num) (by norm_num) (by norm_num)
    (by norm_num) (by norm_num) (by norm_num) (by norm_num) (by norm_num) (by norm_num)

theorem round64_half : round64 (1 / 2) = fin (1 / 2) :=
  round64_eq_of_pos _ _ (-1) 4503599627370496 (by norm_num) (by norm_num) (by norm_num)
    (by norm_num) (by norm_num) (by norm_num) (by norm_num) (by norm_num) (by norm_num)

/-- The binary64 value of `angularSigma` for the bandwidth `1`, printed `0.42466451503312386`. -/
theorem round64_sigma : round64 (1 / 2 / (2651269100633011 / 2251799813685248)) = fin (1912518951660649 / 4503599627370496) :=
  round64_eq_of_pos _ _ (-2) 7650075806642596 (by norm_num) (by norm_num) (by norm_num)
    (by norm_num) (by norm_num) (by norm_num) (by norm_num) (by norm_num) (by norm_num)

theorem round64_two_sigma : round64 (2 * (1912518951660649 / 4503599627370496)) = fin (1912518951660649 / 2251799813685248) :=
  round64_eq_of_pos _ _ (-1) 7650075806642596 (by norm_num) (by norm_num) (by norm_num)
    (by norm_num) (by norm_num) (by norm_num) (by norm_num) (by norm_num) (by norm_num)

/-- The binary64 value of `2 * angularSigma * angularSigma` for the bandwidth `1`, printed
`0.3606799006566366`. -/
theorem round64_two_sigma_sigma : round64 (1912518951660649 / 2251799813685248 * (1912518951660649 / 4503599627370496)) = fin (203044733274657 / 562949953421312) :=
  round64_eq_of_pos _ _ (-2) 6497431464789024 (by norm_num) (by norm_num) (by norm_num)
    (by norm_num) (by norm_num) (by norm_num) (by norm_num) (by norm_num) (by norm_num)

/-! ### The roundings for the orientation `[-1, -1]` at the index `[1, 1]` -/

/-- The binary64 square root of `2` is `6369051672525773 * 2 ^ (-52)`, printed
`1.4142135623730951`. -/
theorem round64_sqrt_two : round64 (Real.sqrt (2)) = fin (6369051672525773 / 4503599627370496) :=
  round64_eq_of_pos _ _ (0) 6369051672525773 (by norm_num)
    (by
      apply Real.le_sqrt_of_sq_le
      norm_num)
    (by
      rw [Real.sqrt_lt' (by norm_num)]
      norm_num)
    (by norm_num) (by norm_num)
    (by
      apply Real.lt_sqrt_of_sq_lt
      norm_num)
    (by
      rw [Real.sqrt_lt' (by norm_num)]
      norm_num)
    (by norm_num) (by norm_num)

theorem round64_three_eighths : round64 (3 / 8) = fin (3 / 8) :=
  round64_eq_of_pos _ _ (-2) 6755399441055744 (by norm_num) (by norm_num) (by norm_num)
    (by norm_num) (by norm_num) (by norm_num) (by norm_num) (by norm_num) (by norm_num)

theorem round64_three_quarters : round64 (3 / 4) = fin (3 / 4) :=
  round64_eq_of_pos _ _ (-1) 6755399441055744 (by norm_num) (by norm_num) (by norm_num)
    (by norm_num) (by norm_num) (by norm_num) (by norm_num) (by norm_num) (by norm_num)

/-- The binary64 product of the radius and the square root of `2` is exactly `0.75`. -/
theorem round64_unit_divisor : round64 (4776788754394329 / 9007199254740992 * (6369051672525773 / 4503599627370496)) = fin (3 / 4) :=
  round64_eq_of_pos _ _ (-1) 6755399441055744 (by norm_num) (by norm_num) (by norm_num)
    (by norm_num) (by norm_num) (by norm_num) (by norm_num) (by norm_num) (by norm_num)

/-! ### The roundings for the orientation `[-6, -6]` at the index `[2, 2]` -/

theorem round64_neg_two : round64 (-(2)) = fin (-(2)) :=
  round64_eq_of_neg (2) (2) (1) 4503599627370496 (by norm_num) (by norm_num) (by norm_num)
    (by norm_num) (by norm_num) (by norm_num) (by norm_num) (by norm_num) (by norm_num)

theorem round64_neg_quarter : round64 (-(1 / 4)) = fin (-(1 / 4)) :=
  round64_eq_of_neg (1 / 4) (1 / 4) (-2) 4503599627370496 (by norm_num) (by norm_num) (by norm_num)
    (by norm_num) (by norm_num) (by norm_num) (by norm_num) (by norm_num) (by norm_num)

theorem round64_three_halves : round64 (3 / 2) = fin (3 / 2) :=
  round64_eq_of_pos _ _ (0) 6755399441055744 (by norm_num) (by norm_num) (by norm_num)
    (by norm_num) (by norm_num) (by norm_num) (by norm_num) (by norm_num) (by norm_num)

theorem round64_three : round64 (3) = fin (3) :=
  round64_eq_of_pos _ _ (1) 6755399441055744 (by norm_num) (by norm_num) (by norm_num)
    (by norm_num) (by norm_num) (by norm_num) (by norm_num) (by norm_num) (by norm_num)

theorem round64_sixteenth : round64 (1 / 16) = fin (1 / 16) :=
  round64_eq_of_pos _ _ (-4) 4503599627370496 (by norm_num) (by norm_num) (by norm_num)
    (by norm_num) (by norm_num) (by norm_num) (by norm_num) (by norm_num) (by norm_num)

theorem round64_eighth : round64 (1 / 8) = fin (1 / 8) :=
  round64_eq_of_pos _ _ (-3) 4503599627370496 (by norm_num) (by norm_num) (by norm_num)
    (by norm_num) (by norm_num) (by norm_num) (by norm_num) (by norm_num) (by norm_num)

/-- The binary64 square root of `1/8` is `6369051672525773 * 2 ^ (-54)`, printed
`0.3535533905932738`. -/
theorem round64_sqrt_eighth : round64 (Real.sqrt (1 / 8)) = fin (6369051672525773 / 18014398509481984) :=
  round64_eq_of_pos _ _ (-2) 6369051672525773 (by norm_num)
    (by
      apply Real.le_sqrt_of_sq_le
      norm_num)
    (by
      rw [Real.sqrt_lt' (by norm_num)]
      norm_num)
    (by norm_num) (by norm_num)
    (by
      apply Real.lt_sqrt_of_sq_lt
      norm_num)
    (by
      rw [Real.sqrt_lt' (by norm_num)]
      norm_num)
    (by norm_num) (by norm_num)

/-- The binary64 product of that radius and the square root of `72` is exactly `3`. -/
theorem round64_inner_divisor : round64 (6369051672525773 / 18014398509481984 * (4776788754394329 / 562949953421312)) = fin (3) :=
  round64_eq_of_pos _ _ (1) 6755399441055744 (by norm_num) (by norm_num) (by norm_num)
    (by norm_num) (by norm_num) (by norm_num) (by norm_num) (by norm_num) (by norm_num)

/-! ### The benign neighbours of the failing input in binary64 -/

/-- Line 97 in binary64 for the bandwidth `1`. -/
theorem angularSigmaWith_binary64_diagonal :
    angularSigmaWith Arithmetic.binary64 (diagonalSource 1) =
      fin (1912518951660649 / 4503599627370496) := by
  unfold angularSigmaWith
  simp only [diagonalSource]
  rw [binary64_ofReal, binary64_ofReal, round64_two, round64_literal,
    binary64_div_fin _ _ (by norm_num), round64_half, binary64_div_fin _ _ (by norm_num),
    round64_sigma]

theorem angularSigmaWith_binary64_unitDiagonal :
    angularSigmaWith Arithmetic.binary64 unitDiagonalSource =
      fin (1912518951660649 / 4503599627370496) := by
  unfold angularSigmaWith
  simp only [unitDiagonalSource]
  rw [binary64_ofReal, binary64_ofReal, round64_two, round64_literal,
    binary64_div_fin _ _ (by norm_num), round64_half, binary64_div_fin _ _ (by norm_num),
    round64_sigma]

/-- Lines 131-138 in binary64 for the quotient `1`, a non-zero radius and the standard
deviation of the bandwidth `1`: the angle is `0` and the value `1.0`. -/
theorem angularGaussianWith_binary64_of_one (r : ℝ) (hr : r ≠ 0) :
    angularGaussianWith Arithmetic.binary64 (fin 1) (fin r)
        (fin (1912518951660649 / 4503599627370496)) = fin 1 := by
  have hacos : Arithmetic.binary64.acos (fin 1) = fin 0 := by
    show roundResult (Double.acos (fin 1)) = fin 0
    rw [acos_fin 1 (by norm_num) le_rfl, Real.arccos_one]
    exact round64_zero
  have hsq : Arithmetic.binary64.mul (fin 0) (fin 0) = fin 0 := by
    rw [binary64_mul_fin, mul_zero, round64_zero]
  have hden : Arithmetic.binary64.mul
      (Arithmetic.binary64.mul (Arithmetic.binary64.ofReal 2)
        (fin (1912518951660649 / 4503599627370496)))
      (fin (1912518951660649 / 4503599627370496)) =
        fin (203044733274657 / 562949953421312) := by
    rw [binary64_ofReal, round64_two, binary64_mul_fin, round64_two_sigma, binary64_mul_fin,
      round64_two_sigma_sigma]
  have hdiv : Arithmetic.binary64.div (fin 0) (fin (203044733274657 / 562949953421312)) =
      fin 0 := by
    rw [binary64_div_fin _ _ (by norm_num), zero_div, round64_zero]
  have hexp : Arithmetic.binary64.exp (Arithmetic.binary64.neg (fin 0)) = fin 1 := by
    show roundResult (Double.exp (-fin 0)) = fin 1
    rw [neg_fin, neg_zero, exp_fin, Real.exp_zero]
    exact round64_one
  unfold angularGaussianWith
  simp only [hacos, hsq, hden, hdiv, hexp]
  simp only [binary64_ofReal, round64_zero, round64_one, eq_fin_fin, decide_eq_true_eq, hr,
    if_false]

theorem binary64_one_times_one :
    Arithmetic.binary64.mul (fin (-1)) (fin (-1)) = fin 1 := by
  rw [binary64_mul_fin, show ((-1 : ℝ) * -1) = 1 by norm_num, round64_one]

theorem binary64_one_times_dist :
    Arithmetic.binary64.mul (fin (-1)) (fin (-(3 / 8))) = fin (3 / 8) := by
  rw [binary64_mul_fin, show ((-1 : ℝ) * -(3 / 8)) = 3 / 8 by norm_num, round64_three_eighths]

/-- Lines 109-113 in binary64 for the orientation `[-1, -1]`. -/
theorem setupLoopWith_binary64_unitDiagonal :
    setupLoopWith Arithmetic.binary64 unitDiagonalSource =
      { orientationRadius := fin 2, centerPoint := fun _ => fin 4 } := by
  have hl : List.finRange 2 = [0, 1] := rfl
  unfold setupLoopWith
  rw [hl]
  simp only [List.foldl_cons, List.foldl_nil, setupStepWith, unitDiagonalSource, exampleSource,
    Matrix.cons_val_zero, Matrix.cons_val_one, Matrix.head_cons]
  rw [binary64_one_times_one, binary64_centre, binary64_ofReal, round64_zero,
    binary64_add_fin, show ((0 : ℝ) + 1) = 1 by norm_num, round64_one,
    binary64_add_fin, show ((1 : ℝ) + 1) = 2 by norm_num, round64_two]
  congr 1
  funext j
  fin_cases j <;> simp [Function.update]

/-- Lines 120-128 in binary64 for the orientation `[-1, -1]` at the index `[1, 1]`. -/
theorem pixelLoopWith_binary64_unitDiagonal :
    pixelLoopWith Arithmetic.binary64 unitDiagonalSource (fun _ => fin 4) ![1, 1] =
      { dist := fun _ => fin (-(3 / 8)), dotProduct := fin (3 / 4), radius := fin (9 / 32) } := by
  have hl : List.finRange 2 = [0, 1] := rfl
  unfold pixelLoopWith
  rw [hl]
  simp only [List.foldl_cons, List.foldl_nil, pixelStepWith, unitDiagonalSource, exampleSource,
    Matrix.cons_val_zero, Matrix.cons_val_one, Matrix.head_cons, Function.update_same]
  rw [binary64_dist, binary64_one_times_dist, binary64_dist_squared, binary64_ofReal,
    round64_zero, binary64_add_fin, show ((0 : ℝ) + 3 / 8) = 3 / 8 by norm_num,
    round64_three_eighths, binary64_add_fin,
    show ((3 / 8 : ℝ) + 3 / 8) = 3 / 4 by norm_num, round64_three_quarters, binary64_add_fin,
    show ((0 : ℝ) + 9 / 64) = 9 / 64 by norm_num, round64_nine_sixty_fourths,
    binary64_add_fin, show ((9 / 64 : ℝ) + 9 / 64) = 9 / 32 by norm_num,
    round64_nine_thirty_seconds]
  congr 1
  funext j
  fin_cases j <;> simp [Function.update]

/-- In binary64 the loop body writes `1.0` at the index `[1, 1]` of the 8 × 8 grid with
orientation `[-1, -1]` and bandwidth `1`: the quotient is exactly `1`. -/
theorem evaluateWith_binary64_unitDiagonal :
    evaluateWith Arithmetic.binary64 unitDiagonalSource ![1, 1] = fin 1 := by
  unfold evaluateWith pixelValueWith
  simp only [setupLoopWith_binary64_unitDiagonal, pixelLoopWith_binary64_unitDiagonal,
    angularSigmaWith_binary64_unitDiagonal]
  rw [binary64_sqrt_fin 2 (by norm_num), round64_sqrt_two,
    binary64_sqrt_fin (9 / 32) (by norm_num),
    round64_sqrt_nine_thirty_seconds, binary64_mul_fin, round64_unit_divisor,
    binary64_div_fin _ _ (by norm_num), show ((3 / 4 : ℝ) / (3 / 4)) = 1 by norm_num,
    round64_one]
  exact angularGaussianWith_binary64_of_one _ (by norm_num)

theorem binary64_inner_dist :
    Arithmetic.binary64.div
        (Arithmetic.binary64.sub (Arithmetic.binary64.ofReal ((2 : ℤ) : ℝ)) (fin 4))
        (Arithmetic.binary64.ofReal ((8 : ℕ) : ℝ)) = fin (-(1 / 4)) := by
  rw [binary64_ofReal, binary64_ofReal, Nat.cast_ofNat, Int.cast_ofNat, round64_two,
    round64_eight, binary64_sub_fin, show ((2 : ℝ) - 4) = -2 by norm_num, round64_neg_two,
    binary64_div_fin _ _ (by norm_num), show ((-2 : ℝ) / 8) = -(1 / 4) by norm_num,
    round64_neg_quarter]

theorem binary64_six_times_inner_dist :
    Arithmetic.binary64.mul (fin (-6)) (fin (-(1 / 4))) = fin (3 / 2) := by
  rw [binary64_mul_fin, show ((-6 : ℝ) * -(1 / 4)) = 3 / 2 by norm_num, round64_three_halves]

theorem binary64_inner_dist_squared :
    Arithmetic.binary64.mul (fin (-(1 / 4))) (fin (-(1 / 4))) = fin (1 / 16) := by
  rw [binary64_mul_fin, show ((-(1 / 4) : ℝ) * -(1 / 4)) = 1 / 16 by norm_num,
    round64_sixteenth]

/-- Lines 120-128 in binary64 for the orientation `[-6, -6]` at the index `[2, 2]`. -/
theorem pixelLoopWith_binary64_diagonal_inner (b : ℝ) :
    pixelLoopWith Arithmetic.binary64 (diagonalSource b) (fun _ => fin 4) ![2, 2] =
      { dist := fun _ => fin (-(1 / 4)), dotProduct := fin 3, radius := fin (1 / 8) } := by
  have hl : List.finRange 2 = [0, 1] := rfl
  unfold pixelLoopWith
  rw [hl]
  simp only [List.foldl_cons, List.foldl_nil, pixelStepWith, diagonalSource, exampleSource,
    Matrix.cons_val_zero, Matrix.cons_val_one, Matrix.head_cons, Function.update_same]
  rw [binary64_inner_dist, binary64_six_times_inner_dist, binary64_inner_dist_squared,
    binary64_ofReal, round64_zero, binary64_add_fin,
    show ((0 : ℝ) + 3 / 2) = 3 / 2 by norm_num, round64_three_halves, binary64_add_fin,
    show ((3 / 2 : ℝ) + 3 / 2) = 3 by norm_num, round64_three, binary64_add_fin,
    show ((0 : ℝ) + 1 / 16) = 1 / 16 by norm_num, round64_sixteenth, binary64_add_fin,
    show ((1 / 16 : ℝ) + 1 / 16) = 1 / 8 by norm_num, round64_eighth]
  congr 1
  funext j
  fin_cases j <;> simp [Function.update]

/-- In binary64 the loop body writes `1.0` at the index `[2, 2]` of the 8 × 8 grid with
orientation `[-6, -6]` and bandwidth `1`: the quotient is exactly `1`. -/
theorem evaluateWith_binary64_diagonal_inner :
    evaluateWith Arithmetic.binary64 (diagonalSource 1) ![2, 2] = fin 1 := by
  unfold evaluateWith pixelValueWith
  simp only [setupLoopWith_binary64_diagonal, pixelLoopWith_binary64_diagonal_inner,
    angularSigmaWith_binary64_diagonal]
  rw [binary64_sqrt_fin 72 (by norm_num), round64_sqrt_seventy_two,
    binary64_sqrt_fin (1 / 8) (by norm_num), round64_sqrt_eighth, binary64_mul_fin,
    round64_inner_divisor, binary64_div_fin _ _ (by norm_num),
    show ((3 : ℝ) / 3) = 1 by norm_num, round64_one]
  exact angularGaussianWith_binary64_of_one _ (by norm_num)

/-! ### The failing input against the claims -/

theorem diagonalSource_valid (b : ℝ) (hb : 0 < b) : Valid (diagonalSource b) := by
  refine ⟨fun d => ?_, ⟨0, ?_⟩, hb⟩
  · fin_cases d <;> simp [diagonalSource, exampleSource]
  · simp [diagonalSource]

theorem unitDiagonalSource_valid : Valid unitDiagonalSource := by
  refine ⟨fun d => ?_, ⟨0, ?_⟩, ?_⟩
  · fin_cases d <;> simp [unitDiagonalSource, exampleSource]
  · simp [unitDiagonalSource]
  · simp [unitDiagonalSource]

/-- In binary64 `DynamicThreadedGenerateData` over the whole 8 × 8 extent leaves
not-a-number at `[1, 1]` for the orientation `[-6, -6]`, whatever the bandwidth and the
buffer. -/
theorem DynamicThreadedGenerateDataWith_binary64_diagonal (b : ℝ)
    (buffer : (Fin 2 → ℤ) → Double) :
    DynamicThreadedGenerateDataWith Arithmetic.binary64 (diagonalSource b) exampleExtent buffer
      ![1, 1] = nan := by
  rw [DynamicThreadedGenerateDataWith_of_isInside _ _ _ _ _
    (exampleExtent_isInside 1 1 (by norm_num) (by norm_num))]
  exact evaluateWith_binary64_diagonal b

theorem diagonalSource_coord (b : ℝ) (index : Fin 2 → ℤ) (d : Fin 2) :
    referenceCoord (diagonalSource b).m_Size index d = ((index d : ℝ) - 4) / 8 :=
  exampleSource_coord index d

theorem diagonalSource_scaled :
    ({ unitDiagonalSource with
        m_Orientation := fun d => 6 * unitDiagonalSource.m_Orientation d } :
      SteerableFilterFreqImageSource ℝ 2) = diagonalSource 1 := by
  have ho : (fun d => 6 * unitDiagonalSource.m_Orientation d) = ![-6, -6] := by
    funext d
    fin_cases d <;> simp [unitDiagonalSource]
  simp only [ho]
  rfl

/-- C3 (what the code does in binary64): for the valid parameter set with size `[8, 8]`,
orientation `[-6, -6]` and bandwidth `1`, at the index `[1, 1]` of the extent, the value
`DynamicThreadedGenerateData` writes is not-a-number, not a number `v` with
`0 < v ≤ 1`. -/
theorem written_value_not_in_unit_interval_in_binary64 :
    Valid (diagonalSource 1) ∧ exampleExtent.IsInside ![1, 1] ∧
      DynamicThreadedGenerateDataWith Arithmetic.binary64 (diagonalSource 1) exampleExtent
        (fun _ => fin 0) ![1, 1] = nan ∧
      ¬ ∃ v : ℝ, DynamicThreadedGenerateDataWith Arithmetic.binary64 (diagonalSource 1)
        exampleExtent (fun _ => fin 0) ![1, 1] = fin v ∧ 0 < v ∧ v ≤ 1 := by
  refine ⟨diagonalSource_valid 1 one_pos,
    exampleExtent_isInside 1 1 (by norm_num) (by norm_num),
    DynamicThreadedGenerateDataWith_binary64_diagonal 1 _, ?_⟩
  rw [DynamicThreadedGenerateDataWith_binary64_diagonal]
  rintro ⟨v, hv, -⟩
  exact Double.noConfusion hv

/-- C5 (what the code does in binary64): for size `[8, 8]`, orientation `[-6, -6]` and
bandwidth `1`, the index `[1, 1]` has a non-zero radius and the reference value there is
`1`, while the value `DynamicThreadedGenerateData` writes is not-a-number. -/
theorem written_value_differs_from_reference_in_binary64 :
    referenceNorm (referenceCoord (diagonalSource 1).m_Size ![1, 1]) ≠ 0 ∧
      referenceValue (diagonalSource 1).m_Size (diagonalSource 1).m_Orientation
        (diagonalSource 1).m_AngularBandwidth ![1, 1] = 1 ∧
      DynamicThreadedGenerateDataWith Arithmetic.binary64 (diagonalSource 1) exampleExtent
        (fun _ => fin 0) ![1, 1] = nan := by
  have hv := diagonalSource_valid 1 one_pos
  have hcoord : ∀ d, coord (diagonalSource 1) ![1, 1] d =
      1 / 16 * (diagonalSource 1).m_Orientation d := by
    intro d
    rw [← referenceCoord_eq, diagonalSource_coord]
    fin_cases d <;> simp [diagonalSource] <;> norm_num
  obtain ⟨hrad, hcos⟩ := cosAngle_of_coord_eq_smul (diagonalSource 1) ![1, 1] (1 / 16)
    (valid_orientationSq_ne_zero hv) hcoord
  refine ⟨?_, ?_, DynamicThreadedGenerateDataWith_binary64_diagonal 1 _⟩
  · rw [referenceNorm_coord, hrad]
    exact (Real.sqrt_ne_zero (mul_nonneg (sq_nonneg _) (orientationSq_nonneg _))).mpr
      (mul_ne_zero (by norm_num) (valid_orientationSq_ne_zero hv))
  · rw [referenceValue_eq, hcos, abs_of_pos (by norm_num : (0 : ℝ) < 1 / 16),
      div_self (by norm_num), Real.arccos_one, gaussOfAngle_zero]

/-- C10 (what the code does in binary64): for size `[8, 8]` and bandwidth `1`, at the
index `[1, 1]`, the value written with the orientation `[-1, -1]` is `1.0` and the value
written with the orientation `6 * [-1, -1]` is not-a-number. -/
theorem orientation_scaling_changes_value_in_binary64 :
    Valid unitDiagonalSource ∧
      DynamicThreadedGenerateDataWith Arithmetic.binary64 unitDiagonalSource exampleExtent
        (fun _ => fin 0) ![1, 1] = fin 1 ∧
      DynamicThreadedGenerateDataWith Arithmetic.binary64
        { unitDiagonalSource with
          m_Orientation := fun d => 6 * unitDiagonalSource.m_Orientation d }
        exampleExtent (fun _ => fin 0) ![1, 1] = nan := by
  refine ⟨unitDiagonalSource_valid, ?_, ?_⟩
  · rw [DynamicThreadedGenerateDataWith_of_isInside _ _ _ _ _
      (exampleExtent_isInside 1 1 (by norm_num) (by norm_num))]
    exact evaluateWith_binary64_unitDiagonal
  · rw [diagonalSource_scaled]
    exact DynamicThreadedGenerateDataWith_binary64_diagonal 1 _

/-- C16 (what the code does in binary64): for size `[8, 8]`, orientation `[-6, -6]` and
bandwidth `1`, the coordinate vector of the index `[1, 1]` is `1/16` times the
orientation, a positive multiple, and the value `DynamicThreadedGenerateData` writes
there is not-a-number, not `1.0`. -/
theorem positive_axis_value_not_one_in_binary64 :
    (∀ d, referenceCoord (diagonalSource 1).m_Size ![1, 1] d =
        1 / 16 * (diagonalSource 1).m_Orientation d) ∧
      DynamicThreadedGenerateDataWith Arithmetic.binary64 (diagonalSource 1) exampleExtent
        (fun _ => fin 0) ![1, 1] = nan ∧
      DynamicThreadedGenerateDataWith Arithmetic.binary64 (diagonalSource 1) exampleExtent
        (fun _ => fin 0) ![1, 1] ≠ fin 1 := by
  refine ⟨fun d => ?_, DynamicThreadedGenerateDataWith_binary64_diagonal 1 _, ?_⟩
  · rw [diagonalSource_coord]
    fin_cases d <;> simp [diagonalSource] <;> norm_num
  · rw [DynamicThreadedGenerateDataWith_binary64_diagonal]
    exact fun h => Double.noConfusion h

/-- C17 (what the code does in binary64): for size `[8, 8]`, orientation `[-6, -6]` and
bandwidth `1`, the non-centre indices `[2, 2]` and `[1, 1]` satisfy
`coord([1, 1]) = 3/2 * coord([2, 2])`, yet the value written at `[2, 2]` is `1.0` and the
value written at `[1, 1]` is not-a-number. -/
theorem same_ray_values_differ_in_binary64 :
    (∀ d, referenceCoord (diagonalSource 1).m_Size ![1, 1] d =
        3 / 2 * referenceCoord (diagonalSource 1).m_Size ![2, 2] d) ∧
      DynamicThreadedGenerateDataWith Arithmetic.binary64 (diagonalSource 1) exampleExtent
        (fun _ => fin 0) ![2, 2] = fin 1 ∧
      DynamicThreadedGenerateDataWith Arithmetic.binary64 (diagonalSource 1) exampleExtent
        (fun _ => fin 0) ![1, 1] = nan := by
  refine ⟨fun d => ?_, ?_, DynamicThreadedGenerateDataWith_binary64_diagonal 1 _⟩
  · rw [diagonalSource_coord, diagonalSource_coord]
    fin_cases d <;> simp <;> norm_num
  · rw [DynamicThreadedGenerateDataWith_of_isInside _ _ _ _ _
      (exampleExtent_isInside 2 2 (by norm_num) (by norm_num))]
    exact evaluateWith_binary64_diagonal_inner

/-- C19 (what the code does in binary64): for size `[8, 8]`, orientation `[-6, -6]` and
the bandwidths `1 < 2`, the values `DynamicThreadedGenerateData` writes at `[1, 1]` are
both not-a-number: there are no numbers `v1 ≤ v2` to compare. -/
theorem bandwidth_values_not_numbers_in_binary64 :
    DynamicThreadedGenerateDataWith Arithmetic.binary64 (diagonalSource 1) exampleExtent
        (fun _ => fin 0) ![1, 1] = nan ∧
      DynamicThreadedGenerateDataWith Arithmetic.binary64 (diagonalSource 2) exampleExtent
        (fun _ => fin 0) ![1, 1] = nan ∧
      ¬ ∃ v₁ v₂ : ℝ,
        DynamicThreadedGenerateDataWith Arithmetic.binary64 (diagonalSource 1) exampleExtent
          (fun _ => fin 0) ![1, 1] = fin v₁ ∧
        DynamicThreadedGenerateDataWith Arithmetic.binary64 (diagonalSource 2) exampleExtent
          (fun _ => fin 0) ![1, 1] = fin v₂ ∧ v₁ ≤ v₂ := by
  refine ⟨DynamicThreadedGenerateDataWith_binary64_diagonal 1 _,
    DynamicThreadedGenerateDataWith_binary64_diagonal 2 _, ?_⟩
  rw [DynamicThreadedGenerateDataWith_binary64_diagonal]
  rintro ⟨v₁, v₂, h, -⟩
  exact Double.noConfusion h

end SteerableFilterFreqImageSource

end itk
